import Mathlib

/-!
Verification of the Arka Intelligence export scripts (`sync-github.ts`,
`sync-jira.ts`, the revised Jira exporter) against their natural-language
specification: a shallow embedding of the pure core of the pipeline --
record classification, cycle-time computation, reconciliation of the two
commit streams, identifier namespacing, the retry policy and the pagination
drivers -- together with theorems settling the specification claims.

Modelling conventions:
* JavaScript strings are Lean `String`s; `Date.getTime()` is an explicit
  environment parameter `dateMs : String → Int` (epoch milliseconds).
* JavaScript `x || y` treats `""` (and `0`) as falsy; the helpers `jsOr`,
  `jsStrOrNull`, `jsNumOrNull` reproduce this, while `?? `-style nullish
  choices are ordinary `Option` matches.
* Network results (fetched pages, GraphQL detail maps, user profiles, the
  merged org member email map) are oracle functions supplied as inputs; the
  embedded functions reproduce the scripts' processing of whatever the
  oracles return.
* The AI-assistance fields of commit records (`isAiAssisted`, `aiTool`,
  `aiModel`, produced by `detectAiTool`) are omitted from the embedding:
  no claim mentions them and they influence no other field.
-/

namespace Arka

/-! ## JavaScript value helpers -/

/-- JavaScript `a || b` for an optional string: `null`/`undefined` and the
empty string are falsy. -/
def jsOr (a : Option String) (b : String) : String :=
  match a with
  | some s => if s = "" then b else s
  | none => b

/-- JavaScript `a || null` for an optional string: `""` collapses to `null`. -/
def jsStrOrNull (a : Option String) : Option String :=
  match a with
  | some s => if s = "" then none else some s
  | none => none

/-- JavaScript `a || null` for an optional number: `0` collapses to `null`. -/
def jsNumOrNull (a : Option Int) : Option Int :=
  match a with
  | some n => if n = 0 then none else some n
  | none => none

/-- JavaScript truthiness of an optional string (`if (x) ...`). -/
def jsTruthy (a : Option String) : Bool :=
  match a with
  | some s => s ≠ ""
  | none => false

/-! ## String machinery

The scripts compare ASCII markers with `toLowerCase`, `startsWith`,
`endsWith`, `includes`.  These are embedded over the character-code lists of
the strings so that every predicate is a structural recursion the kernel can
evaluate. -/

/-- Character codes of a string. -/
def codesOf (s : String) : List Nat := s.data.map Char.toNat

/-- Character codes of `s.toLowerCase()` (ASCII case folding; the scripts
only compare ASCII markers). -/
def lowerCodes (s : String) : List Nat :=
  s.data.map fun c => let n := c.toNat; if 65 ≤ n ∧ n ≤ 90 then n + 32 else n

/-- `pat` occurs as a contiguous run inside the second list
(JavaScript `includes`). -/
def containsSeq (pat : List Nat) : List Nat → Bool
  | [] => pat.isEmpty
  | x :: t => pat.isPrefixOf (x :: t) || containsSeq pat t

/-- JavaScript `s.includes(pat)` (case-sensitive). -/
def strIncludes (s pat : String) : Bool := containsSeq (codesOf pat) (codesOf s)

/-- Decimal digit character code. -/
def digitCode (d : Nat) : Nat := 48 + d

/-- Fuel-driven decimal digit expansion (fuel `n + 1` always suffices). -/
def natDigitsGo : Nat → Nat → List Nat
  | 0, _ => []
  | fuel + 1, n => if n < 10 then [digitCode n] else natDigitsGo fuel (n / 10) ++ [digitCode (n % 10)]

/-- JavaScript `String(n)` for a natural number. -/
def natToStr (n : Nat) : String := ⟨(natDigitsGo (n + 1) n).map Char.ofNat⟩

/-! ## Record classification (`sync-github.ts`) -/

/-- `isBot` from `sync-github.ts` (lines 174-186): structural bot-account
patterns over the lower-cased username. -/
def isBot (username : String) : Bool :=
  let lower := lowerCodes username
  (codesOf "[bot]").isSuffixOf lower ||
  (codesOf "dependabot").isPrefixOf lower ||
  (codesOf "renovate").isPrefixOf lower ||
  (codesOf "github-actions").isPrefixOf lower ||
  (codesOf "codecov").isPrefixOf lower ||
  containsSeq (codesOf "-bot") lower ||
  containsSeq (codesOf "_bot") lower ||
  lower == codesOf "web-flow"

/-! ## Cycle time -/

/-- `parseFloat(x.toFixed(2))`: rounding to two decimal places, the scripts'
rounding of cycle times (ties rounded up, matching `toFixed` on the exactly
representable values that matter here). -/
def toFixed2 (q : Rat) : Rat := (round (q * 100) : Int) / 100

/-- `calculateCycleTimeHours` (textually identical in `sync-github.ts` lines
536-544, `sync-jira.ts` lines 117-125 and the revised Jira exporter): `null`
for a missing (or empty, hence falsy) terminal timestamp, otherwise the
millisecond difference divided by `1000 * 60 * 60`, rounded via `toFixed(2)`.
`dateMs` embeds `new Date(s).getTime()`. -/
def calculateCycleTimeHours (dateMs : String → Int) (start : String) :
    Option String → Option Rat
  | none => none
  | some e =>
    if e = "" then none
    else some (toFixed2 (((dateMs e - dateMs start : Int) : Rat) / (1000 * 60 * 60)))

/-- Stated from the claim's words: the difference between the terminal and
created timestamps expressed in hours, rounded to two decimal places. -/
def claimCycleHours (createdMs terminalMs : Int) : Rat :=
  toFixed2 (((terminalMs - createdMs : Int) : Rat) / 3600000)

/-- `Date.getTime()` on the timestamps of the claim's worked example: epoch
milliseconds of 2025-01-01T00:00:00Z and 2025-01-02T12:00:00Z. -/
def exampleDateMs (s : String) : Int :=
  if s = "2025-01-01T00:00:00Z" then 1735689600000
  else if s = "2025-01-02T12:00:00Z" then 1735819200000
  else 0

/-! ## GitHub source records (`sync-github.ts` interfaces, lines 30-96) -/

/-- The `{ name }` label objects. -/
structure NameRec where
  name : String
deriving DecidableEq

/-- The `{ login }` objects (`requested_reviewers`, issue `assignee`,
review `user` -- the numeric `id`/`avatar_url` fields these carry in the API
are never read by the script except for profiles, below). -/
structure LoginRec where
  login : String
deriving DecidableEq

/-- `interface GitHubPR`. -/
structure GitHubPR where
  number : Nat
  title : String
  html_url : String
  state : String
  user : Option LoginRec
  created_at : String
  merged_at : Option String
  closed_at : Option String
  additions : Option Nat
  deletions : Option Nat
  commits : Nat
  review_comments : Nat
  labels : List NameRec
  requested_reviewers : List LoginRec
  draft : Bool
deriving DecidableEq

/-- The `{ date } | null` author/committer metadata inside `commit`. -/
structure CommitMeta where
  date : Option String
deriving DecidableEq

/-- `interface GitHubCommit` (the nested `commit` object is flattened into
`commitMessage` / `commitAuthor` / `commitCommitter`). -/
structure GitHubCommit where
  sha : String
  html_url : String
  commitMessage : String
  commitAuthor : Option CommitMeta
  commitCommitter : Option CommitMeta
  author : Option LoginRec
  statsAdditions : Option Int
  statsDeletions : Option Int
deriving DecidableEq

/-- `interface GitHubReview`. -/
structure GitHubReview where
  id : Nat
  user : Option LoginRec
  state : String
  submitted_at : String
  body : String
deriving DecidableEq

/-- `interface GitHubIssue`; `has_pull_request` embeds the JavaScript
`"pull_request" in i` test used to drop PRs from the issues endpoint. -/
structure GitHubIssue where
  number : Nat
  title : String
  html_url : String
  state : String
  user : Option LoginRec
  assignee : Option LoginRec
  labels : List NameRec
  created_at : String
  closed_at : Option String
  has_pull_request : Bool
deriving DecidableEq

/-- `interface GitHubUser` (the profile returned by `users/{username}`). -/
structure GitHubUser where
  login : String
  id : Nat
  name : Option String
  email : Option String
  avatar_url : String
  type : String
deriving DecidableEq

/-- One commit node of `PrDetails` as produced by `fetchPrDetailsBatch`. -/
structure PrDetailCommit where
  sha : String
  message : String
  authorUsername : Option String
  authorDate : String
  additions : Option Int
  deletions : Option Int
deriving DecidableEq

/-- `interface PrDetails` (result entries of `fetchPrDetailsBatch`). -/
structure PrDetails where
  additions : Nat
  deletions : Nat
  commits : List PrDetailCommit
deriving DecidableEq

/-! ## Export payload records (`interface ExportPayload`) -/

inductive PRState where
  | open_ | merged | closed
deriving DecidableEq

inductive IssueState where
  | open_ | closed
deriving DecidableEq

structure ContributorRec where
  externalUsername : String
  externalId : String
  displayName : Option String
  email : Option String
  avatarUrl : String
deriving DecidableEq

structure PRRec where
  externalId : String
  externalUrl : String
  title : String
  authorUsername : Option String
  state : PRState
  createdAt : String
  mergedAt : Option String
  closedAt : Option String
  additions : Nat
  deletions : Nat
  commitsCount : Nat
  reviewsCount : Nat
  cycleTimeHours : Option Rat
  labels : List String
  reviewers : List String
  draft : Bool
deriving DecidableEq

structure CommitRec where
  sha : String
  externalUrl : String
  prExternalId : Option String
  authorUsername : Option String
  message : String
  committedAt : String
  additions : Option Int
  deletions : Option Int
deriving DecidableEq

structure IssueRec where
  externalId : String
  externalUrl : String
  title : String
  authorUsername : Option String
  assigneeUsername : Option String
  state : IssueState
  createdAt : String
  closedAt : Option String
  resolvedAt : Option String
  cycleTimeHours : Option Rat
  labels : List String
deriving DecidableEq

structure ReviewRec where
  prExternalId : String
  reviewerUsername : Option String
  state : String
  submittedAt : String
  body : Option String
deriving DecidableEq

/-- The snapshot's flat collections (the `metadata` section carries no
cross-references and is not modelled). -/
structure ExportPayload where
  contributors : List ContributorRec
  pullRequests : List PRRec
  commits : List CommitRec
  issues : List IssueRec
  reviews : List ReviewRec
deriving DecidableEq

/-! ## `exportPullRequests` (lines 550-671)

The script's single loop over the filtered PRs pushes onto three arrays; it
is decomposed here into a `filter` of the kept (non-bot-authored) PRs
followed by one `map`/`flatMap` per output array, which produces the same
three lists in the same order. -/

/-- `validStates` (line 582). -/
def validStates : List String := ["approved", "changes_requested", "commented", "dismissed"]

/-- The lower-cased review state (`review.state.toLowerCase()`), as a
string rebuilt from its folded codes. -/
def lowerStr (s : String) : String := ⟨(lowerCodes s).map Char.ofNat⟩

/-- `pr.user && isBot(pr.user.login)` (line 588). -/
def prBotAuthored (pr : GitHubPR) : Bool :=
  match pr.user with
  | some u => isBot u.login
  | none => false

/-- The PR record built at lines 625-647. -/
def mkPRRec (dateMs : String → Int) (detailsMap : Nat → Option PrDetails)
    (reviewsFor : Nat → List GitHubReview) (pr : GitHubPR) : PRRec :=
  let details := detailsMap pr.number
  let reviews := reviewsFor pr.number
  { externalId := natToStr pr.number
    externalUrl := pr.html_url
    title := pr.title
    authorUsername := jsStrOrNull (pr.user.map (·.login))
    state :=
      if pr.merged_at.isSome then .merged
      else if pr.state = "closed" then .closed
      else .open_
    createdAt := pr.created_at
    mergedAt := pr.merged_at
    closedAt := pr.closed_at
    additions := (details.map (·.additions)).getD (pr.additions.getD 0)
    deletions := (details.map (·.deletions)).getD (pr.deletions.getD 0)
    commitsCount := pr.commits
    reviewsCount := (reviews.filter fun r => validStates.contains (lowerStr r.state)).length
    cycleTimeHours := calculateCycleTimeHours dateMs pr.created_at pr.merged_at
    labels := pr.labels.map (·.name)
    reviewers := pr.requested_reviewers.map (·.login)
    draft := pr.draft }

/-- The review records pushed for one PR at lines 611-623 (bot reviewers and
non-`validStates` states, i.e. `PENDING`, are skipped). -/
def mkReviewRecs (reviewsFor : Nat → List GitHubReview) (pr : GitHubPR) : List ReviewRec :=
  ((reviewsFor pr.number).filter fun r =>
      !(match r.user with | some u => isBot u.login | none => false) &&
      validStates.contains (lowerStr r.state)).map fun r =>
    { prExternalId := natToStr pr.number
      reviewerUsername := jsStrOrNull (r.user.map (·.login))
      state := lowerStr r.state
      submittedAt := r.submitted_at
      body := jsStrOrNull (some r.body) }

/-- The PR-linked commit records pushed for one PR at lines 649-666
(`details?.commits || []`, bot authors skipped via `c.authorUsername || ""`). -/
def mkPrCommitRecs (owner repo : String) (detailsMap : Nat → Option PrDetails)
    (pr : GitHubPR) : List CommitRec :=
  (((detailsMap pr.number).map (·.commits)).getD []).filterMap fun c =>
    if isBot (jsOr c.authorUsername "") then none
    else some
      { sha := c.sha
        externalUrl := "https://github.com/" ++ owner ++ "/" ++ repo ++ "/commit/" ++ c.sha
        prExternalId := some (natToStr pr.number)
        authorUsername := c.authorUsername
        message := c.message
        committedAt := c.authorDate
        additions := c.additions
        deletions := c.deletions }

/-- The `since` filter of lines 563-565
(`new Date(pr.created_at) >= since`). -/
def sinceFiltered (dateMs : String → Int) (since : Option Int)
    (prs : List GitHubPR) : List GitHubPR :=
  match since with
  | none => prs
  | some s => prs.filter fun pr => s ≤ dateMs pr.created_at

/-- The PRs the loop actually processes: filtered by `since`, bot authors
skipped (line 588). -/
def keptPrs (dateMs : String → Int) (since : Option Int)
    (prs : List GitHubPR) : List GitHubPR :=
  (sinceFiltered dateMs since prs).filter fun pr => !prBotAuthored pr

/-- `exportPullRequests`: `since` filtering (lines 563-565), the bot skip
(line 588), and the three output arrays. -/
def exportPullRequests (dateMs : String → Int) (since : Option Int)
    (owner repo : String) (prs : List GitHubPR)
    (detailsMap : Nat → Option PrDetails) (reviewsFor : Nat → List GitHubReview) :
    List PRRec × List ReviewRec × List CommitRec :=
  (((keptPrs dateMs since prs)).map (mkPRRec dateMs detailsMap reviewsFor),
   (keptPrs dateMs since prs).flatMap (mkReviewRecs reviewsFor),
   (keptPrs dateMs since prs).flatMap (mkPrCommitRecs owner repo detailsMap))

/-! ## `exportCommits` (lines 673-719) -/

/-- `c.author?.login && isBot(c.author.login)` (line 698): the skip fires
only when the login is truthy and a bot. -/
def commitBotAuthored (c : GitHubCommit) : Bool :=
  match c.author with
  | some a => a.login ≠ "" && isBot a.login
  | none => false

/-- `exportCommits`: the repo-wide commit stream, minus shas already seen
via the PR path and minus bot authors.  `nowIso` embeds the
`new Date().toISOString()` fallback of line 708. -/
def exportCommits (nowIso : String) (repoCommits : List GitHubCommit)
    (seenShas : List String) : List CommitRec :=
  repoCommits.filterMap fun c =>
    if seenShas.contains c.sha then none
    else if commitBotAuthored c then none
    else some
      { sha := c.sha
        externalUrl := c.html_url
        prExternalId := none
        authorUsername := jsStrOrNull (c.author.map (·.login))
        message := c.commitMessage
        committedAt :=
          jsOr (c.commitAuthor.bind (·.date)) (jsOr (c.commitCommitter.bind (·.date)) nowIso)
        additions := jsNumOrNull c.statsAdditions
        deletions := jsNumOrNull c.statsDeletions }

/-! ## `exportIssues` (lines 721-779)

The `since` filter is applied server-side (request parameter), so the input
list is already the filtered stream. -/

def issueBotInvolved (i : GitHubIssue) : Bool :=
  (match i.user with | some u => isBot u.login | none => false) ||
  (match i.assignee with | some a => isBot a.login | none => false)

def exportIssues (dateMs : String → Int) (issues : List GitHubIssue) : List IssueRec :=
  ((issues.filter fun i => !i.has_pull_request).filter fun i => !issueBotInvolved i).map fun i =>
    { externalId := natToStr i.number
      externalUrl := i.html_url
      title := i.title
      authorUsername := jsStrOrNull (i.user.map (·.login))
      assigneeUsername := jsStrOrNull (i.assignee.map (·.login))
      state := if i.state = "closed" then .closed else .open_
      createdAt := i.created_at
      closedAt := i.closed_at
      resolvedAt := i.closed_at
      cycleTimeHours := calculateCycleTimeHours dateMs i.created_at i.closed_at
      labels := i.labels.map (·.name) }

/-! ## `exportContributors` (lines 781-835) -/

/-- The username stream feeding the `usernames` set, in the script's
insertion order: PR authors, then commit authors, then issue authors and
assignees.  `if (x) usernames.add(x)` skips null and empty usernames. -/
def rawUsernames (prs : List PRRec) (commits : List CommitRec)
    (issues : List IssueRec) : List String :=
  prs.filterMap (fun pr => jsStrOrNull pr.authorUsername) ++
  commits.filterMap (fun c => jsStrOrNull c.authorUsername) ++
  issues.flatMap (fun i =>
    (jsStrOrNull i.authorUsername).toList ++ (jsStrOrNull i.assigneeUsername).toList)

/-- First-occurrence deduplication (iteration order of a JavaScript `Set`). -/
def dedupFirstGo (seen : List String) : List String → List String
  | [] => []
  | x :: xs =>
    if seen.contains x then dedupFirstGo seen xs
    else x :: dedupFirstGo (x :: seen) xs

def dedupFirst (l : List String) : List String := dedupFirstGo [] l

/-- The `usernames` set of `exportContributors`. -/
def collectUsernames (prs : List PRRec) (commits : List CommitRec)
    (issues : List IssueRec) : List String :=
  dedupFirst (rawUsernames prs commits issues)

/-- One contributor entry (lines 816-831): skipped when the profile fetch
fails, email preferring the merged org email map (`?? `, nullish). -/
def mkContributor (orgEmail : String → Option String) (profile : GitHubUser) :
    ContributorRec :=
  { externalUsername := profile.login
    externalId := natToStr profile.id
    displayName := profile.name
    email :=
      match orgEmail profile.login with
      | some e => some e
      | none => profile.email
    avatarUrl := profile.avatar_url }

/-- `exportContributors`: `profileOf` embeds `fetchGitHubUserProfile`
(returning `null` on any fetch failure) and `orgEmail` the merged
`fetchOrgMemberEmailMap` results for all owners. -/
def exportContributors (profileOf : String → Option GitHubUser)
    (orgEmail : String → Option String) (prs : List PRRec)
    (commits : List CommitRec) (issues : List IssueRec) : List ContributorRec :=
  (collectUsernames prs commits issues).filterMap fun username =>
    (profileOf username).map (mkContributor orgEmail)

/-! ## `main` (lines 841-1037): per-repo processing, namespacing, assembly -/

/-- The non-network environment of one run. -/
structure RunEnv where
  dateMs : String → Int
  nowIso : String
  since : Option Int
  profileOf : String → Option GitHubUser
  orgEmail : String → Option String

/-- The fetched raw inputs of one repository (each field is what the
corresponding network phase returned for that repo). -/
structure RepoInput where
  repo : String
  prs : List GitHubPR
  detailsFor : Nat → Option PrDetails
  reviewsFor : Nat → List GitHubReview
  repoCommits : List GitHubCommit
  issues : List GitHubIssue

/-- One owner together with the repos processed for it (`fetchAllRepos`
result, or the single `--repo` name). -/
structure OwnerInput where
  owner : String
  repos : List RepoInput

/-- The four per-repo record lists accumulated by `main`. -/
structure UnitRecords where
  prs : List PRRec
  reviews : List ReviewRec
  commits : List CommitRec
  issues : List IssueRec
deriving DecidableEq

/-- The PR-path commits of one repo (the `prCommits` of line 948 whose shas
seed `seenShas`). -/
def prCommitsOf (env : RunEnv) (owner : String) (ri : RepoInput) : List CommitRec :=
  (exportPullRequests env.dateMs env.since owner ri.repo ri.prs ri.detailsFor ri.reviewsFor).2.2

/-- Lines 946-952: run the three exports for one repo; `seenShas` is the set
of shas captured via the PR path, and the commit collection is the PR-path
commits followed by the filtered direct commits. -/
def repoUnit (env : RunEnv) (owner : String) (ri : RepoInput) : UnitRecords :=
  let e := exportPullRequests env.dateMs env.since owner ri.repo ri.prs ri.detailsFor ri.reviewsFor
  let prCommits := e.2.2
  let seenShas := prCommits.map (·.sha)
  let directCommits := exportCommits env.nowIso ri.repoCommits seenShas
  { prs := e.1
    reviews := e.2.1
    commits := prCommits ++ directCommits
    issues := exportIssues env.dateMs ri.issues }

/-- Lines 965-970: the per-collection identifier rewrite with the computed
prefix `q`.  A commit's `prExternalId` is rewritten only when truthy
(non-null and non-empty). -/
def qualifyWith (q : String) (u : UnitRecords) : UnitRecords :=
  { prs := u.prs.map fun pr => { pr with externalId := q ++ "/" ++ pr.externalId }
    reviews := u.reviews.map fun r => { r with prExternalId := q ++ "/" ++ r.prExternalId }
    commits := u.commits.map fun c =>
      match c.prExternalId with
      | some pid => if pid = "" then c else { c with prExternalId := some (q ++ "/" ++ pid) }
      | none => c
    issues := u.issues.map fun i => { i with externalId := q ++ "/" ++ i.externalId } }

/-- Lines 962-971: prefix externalIds to avoid collisions across
repos/orgs. -/
def qualifyRecords (multiOwner multiRepo : Bool) (owner repo : String)
    (u : UnitRecords) : UnitRecords :=
  if multiOwner || multiRepo then
    qualifyWith (if multiOwner then owner ++ "/" ++ repo else repo) u
  else u

/-- All qualified per-repo units of a run, in processing order
(`multiOwner` is global, `multiRepo` per owner). -/
def allUnits (env : RunEnv) (inputs : List OwnerInput) : List UnitRecords :=
  let multiOwner := decide (1 < inputs.length)
  inputs.flatMap fun oi =>
    let multiRepo := decide (1 < oi.repos.length)
    oi.repos.map fun ri =>
      qualifyRecords multiOwner multiRepo oi.owner ri.repo (repoUnit env oi.owner ri)

/-- The full run: accumulate every unit's records, then build contributors
from the accumulated PRs, commits and issues (lines 973-1005). -/
def runExport (env : RunEnv) (inputs : List OwnerInput) : ExportPayload :=
  let us := allUnits env inputs
  let allPRs := us.flatMap (·.prs)
  let allCommits := us.flatMap (·.commits)
  let allIssues := us.flatMap (·.issues)
  let allReviews := us.flatMap (·.reviews)
  { contributors := exportContributors env.profileOf env.orgEmail allPRs allCommits allIssues
    pullRequests := allPRs
    commits := allCommits
    issues := allIssues
    reviews := allReviews }

/-- The username set a run's contributor phase works from (the argument of
`exportContributors` inside `runExport`). -/
def runUsernames (env : RunEnv) (inputs : List OwnerInput) : List String :=
  collectUsernames ((allUnits env inputs).flatMap (·.prs))
    ((allUnits env inputs).flatMap (·.commits))
    ((allUnits env inputs).flatMap (·.issues))

/-! ## Claim-side reference integrity predicate (claim C1) -/

/-- Stated from the claim's words: every foreign-key-like field of the
snapshot is explicitly null or resolves to an entry of the corresponding
collection. -/
def snapshotRefsResolve (p : ExportPayload) : Bool :=
  let usernameOk : Option String → Bool := fun u =>
    match u with
    | none => true
    | some s => p.contributors.any fun ct => ct.externalUsername = s
  let prIdOk : String → Bool := fun x =>
    p.pullRequests.any fun pr => pr.externalId = x
  (p.pullRequests.all fun pr => usernameOk pr.authorUsername) &&
  (p.commits.all fun c =>
    usernameOk c.authorUsername &&
    (match c.prExternalId with | none => true | some x => prIdOk x)) &&
  (p.issues.all fun i => usernameOk i.authorUsername && usernameOk i.assigneeUsername) &&
  (p.reviews.all fun r => usernameOk r.reviewerUsername && prIdOk r.prExternalId)

/-! ## Retry policy: `ghApi` (`sync-github.ts` lines 240-304)

One remote call is an oracle from the attempt number (1-based) to its
outcome.  The run returns the terminal result, the number of attempts made,
and the backoff waits performed, each logged as `(attempt, milliseconds)`.
The loop is driven by fuel equal to the remaining attempts; every branch of
the source loop returns at `attempt == retries`, so fuel `retries` is exact,
and fuel exhaustion is the source's post-loop `Failed after N retries`
throw. -/

/-- Outcome of one `execSync("gh api ...")` call. -/
inductive GhOutcome where
  | ok (body : String)
  | fail (stderr stdout : String)

/-- Terminal result of `ghApi`. -/
inductive GhResult where
  | success (body : String)
  | notFoundErr
  | err (stderr stdout : String)
  | exhausted
deriving DecidableEq

/-- Line 264: `stdout.includes('"status":"404"') || stdout.includes("Not Found")`. -/
def ghIsNotFound (stdout : String) : Bool :=
  strIncludes stdout "\"status\":\"404\"" || strIncludes stdout "Not Found"

/-- Lines 268-271. -/
def ghIsConnectionError (stderr : String) : Bool :=
  strIncludes stderr "connection refused" ||
  strIncludes stderr "connection reset" ||
  strIncludes stderr "dial tcp"

/-- Line 283. -/
def ghIsRateLimited (stderr stdout : String) : Bool :=
  strIncludes stdout "rate limit" || strIncludes stderr "rate limit"

/-- The per-failure backoff base chosen by `ghApi` at a given attempt
(0 when the branch throws instead of waiting). -/
def ghWaitBase (retries attempt : Nat) (o : GhOutcome) : Nat :=
  match o with
  | .ok _ => 0
  | .fail stderr stdout =>
    if ghIsNotFound stdout then 0
    else if ghIsConnectionError stderr && decide (attempt < retries) then 2000
    else if ghIsRateLimited stderr stdout && decide (attempt < retries) then 1000
    else if attempt == retries then 0
    else 500

def ghApiGo (oracle : Nat → GhOutcome) (retries : Nat) :
    Nat → Nat → List (Nat × Nat) → GhResult × Nat × List (Nat × Nat)
  | 0, attempt, waits => (.exhausted, attempt - 1, waits)
  | fuel + 1, attempt, waits =>
    match oracle attempt with
    | .ok body => (.success body, attempt, waits)
    | .fail stderr stdout =>
      if ghIsNotFound stdout then (.notFoundErr, attempt, waits)
      else if ghIsConnectionError stderr && decide (attempt < retries) then
        ghApiGo oracle retries fuel (attempt + 1) (waits ++ [(attempt, 2 ^ attempt * 2000)])
      else if ghIsRateLimited stderr stdout && decide (attempt < retries) then
        ghApiGo oracle retries fuel (attempt + 1) (waits ++ [(attempt, 2 ^ attempt * 1000)])
      else if attempt == retries then (.err stderr stdout, attempt, waits)
      else ghApiGo oracle retries fuel (attempt + 1) (waits ++ [(attempt, 2 ^ attempt * 500)])

/-- `ghApi` with its default `retries = 3` supplied by the caller. -/
def ghApiRun (oracle : Nat → GhOutcome) (retries : Nat) :
    GhResult × Nat × List (Nat × Nat) :=
  ghApiGo oracle retries retries 1 []

/-! ## Retry policy: the revised Jira exporter's `jiraApi` (lines 175-259)

`curl -w` appends the HTTP status; the oracle yields either that parsed
(status, body) pair or an `execSync` failure message.  401/403 raise the
`Authentication failed` error which the catch block rethrows without
retrying; 429 waits `2^attempt * 5000` and continues (even on the last
attempt, after which the loop exits into the final throw); 5xx and Jira
API-error bodies raise errors retried with base 500; `execSync` failures
are retried with base 2000 when the message matches a network pattern and
500 otherwise. -/

/-- The parsed response body: clean JSON, or one with
`errorMessages`/`errors` set. -/
inductive JiraBody where
  | ok
  | apiError
deriving DecidableEq

inductive JiraOutcome where
  | http (status : Nat) (body : JiraBody)
  | execFail (msg : String)

inductive JiraResult where
  | success
  | authFatal
  | errFatal
  | exhausted
deriving DecidableEq

/-- Lines 241-244. -/
def jiraIsNetwork (msg : String) : Bool :=
  strIncludes msg "connection refused" ||
  strIncludes msg "connection reset" ||
  strIncludes msg "Could not resolve host"

def jiraApiGo (oracle : Nat → JiraOutcome) (retries : Nat) :
    Nat → Nat → List (Nat × Nat) → JiraResult × Nat × List (Nat × Nat)
  | 0, attempt, waits => (.exhausted, attempt - 1, waits)
  | fuel + 1, attempt, waits =>
    match oracle attempt with
    | .http status body =>
      if status == 401 || status == 403 then (.authFatal, attempt, waits)
      else if status == 429 then
        jiraApiGo oracle retries fuel (attempt + 1) (waits ++ [(attempt, 2 ^ attempt * 5000)])
      else if decide (500 ≤ status) then
        if attempt == retries then (.errFatal, attempt, waits)
        else jiraApiGo oracle retries fuel (attempt + 1) (waits ++ [(attempt, 2 ^ attempt * 500)])
      else
        match body with
        | .ok => (.success, attempt, waits)
        | .apiError =>
          if attempt == retries then (.errFatal, attempt, waits)
          else jiraApiGo oracle retries fuel (attempt + 1) (waits ++ [(attempt, 2 ^ attempt * 500)])
    | .execFail msg =>
      if strIncludes msg "Authentication failed" then (.authFatal, attempt, waits)
      else if attempt == retries then (.errFatal, attempt, waits)
      else if jiraIsNetwork msg then
        jiraApiGo oracle retries fuel (attempt + 1) (waits ++ [(attempt, 2 ^ attempt * 2000)])
      else
        jiraApiGo oracle retries fuel (attempt + 1) (waits ++ [(attempt, 2 ^ attempt * 500)])

def jiraApiRun (oracle : Nat → JiraOutcome) (retries : Nat) :
    JiraResult × Nat × List (Nat × Nat) :=
  jiraApiGo oracle retries retries 1 []

/-! ## Retry policy: the older `sync-jira.ts` `jiraApi` (lines 174-212)

No status-code handling at all: any error (including an authentication
failure surfacing as a Jira `errorMessages` body) is retried with the single
base 500 until the attempts run out. -/

def oldJiraApiGo (oracle : Nat → Bool) (retries : Nat) :
    Nat → Nat → List (Nat × Nat) → JiraResult × Nat × List (Nat × Nat)
  | 0, attempt, waits => (.exhausted, attempt - 1, waits)
  | fuel + 1, attempt, waits =>
    if oracle attempt then (.success, attempt, waits)
    else if attempt == retries then (.errFatal, attempt, waits)
    else oldJiraApiGo oracle retries fuel (attempt + 1) (waits ++ [(attempt, 2 ^ attempt * 500)])

def oldJiraApiRun (oracle : Nat → Bool) (retries : Nat) :
    JiraResult × Nat × List (Nat × Nat) :=
  oldJiraApiGo oracle retries retries 1 []

/-! ## Paginated fetching: `ghApiPaginated` (lines 306-333)

`pages` is the oracle giving the items of each 1-based page (each request
asks for `per_page=100`).  The loop breaks on an empty page before pushing,
breaks after pushing a page shorter than 100, and otherwise continues up to
`maxPages`.  The fuel argument counts the pages the loop may still visit. -/

def ghPaginatedGo (pages : Nat → List α) (page : Nat) : Nat → List α
  | 0 => []
  | fuel + 1 =>
    let pr := pages page
    if pr.length = 0 then []
    else if pr.length < 100 then pr
    else pr ++ ghPaginatedGo pages (page + 1) fuel

def ghApiPaginated (pages : Nat → List α) (maxPages : Nat) : List α :=
  ghPaginatedGo pages 1 maxPages

/-! ## Paginated fetching: the revised Jira exporter's cursor loop
(lines 288-322)

`responses` gives, per 0-based request index, the `issues` page and the
optional `nextPageToken`.  After appending a page the loop breaks when the
accumulated count reaches `maxResults`, then when the response carried no
token.  The loop has no page cap of its own, so it is modelled with explicit
fuel; `none` is a run that never hit either stop condition within the
fuel. -/

def jiraFetchPages (responses : Nat → List α × Option String) (maxResults : Nat) :
    Nat → Nat → List α → Option (List α)
  | 0, _, _ => none
  | fuel + 1, i, acc =>
    let r := responses i
    let acc2 := acc ++ r.1
    if maxResults ≤ acc2.length then some acc2
    else
      match r.2 with
      | none => some acc2
      | some _ => jiraFetchPages responses maxResults fuel (i + 1) acc2

/-! ## The Jira issue record (`exportJiraIssues`, `sync-jira.ts` lines
245-275 and the revised exporter lines 328-358; the mapping is identical) -/

/-- The optional `{ emailAddress?, displayName? }` actors. -/
structure JiraActor where
  emailAddress : Option String
  displayName : Option String
deriving DecidableEq

/-- `interface JiraIssue` (the nested `fields` object is flattened;
`statusName`/`statusCategoryKey` embed `status.name` /
`status.statusCategory.key`, `issuetypeName` embeds `issuetype.name`,
`priorityName` the optional `priority.name`). -/
structure JiraIssue where
  key : String
  summary : String
  statusName : String
  statusCategoryKey : String
  issuetypeName : String
  creator : Option JiraActor
  assignee : Option JiraActor
  reporter : Option JiraActor
  created : String
  updated : String
  resolutiondate : Option String
  labels : List String
  priorityName : Option String
  customfield_10016 : Option Int
deriving DecidableEq

inductive JiraState where
  | open_ | in_progress | resolved | closed
deriving DecidableEq

/-- `mapJiraState` (lines 127-142): switch on the lower-cased status
category; note that the `"closed"` member of the output enumeration is
produced by no branch. -/
def mapJiraState (statusCategory : String) : JiraState :=
  let l := lowerCodes statusCategory
  if l == codesOf "new" || l == codesOf "to do" then .open_
  else if l == codesOf "indeterminate" || l == codesOf "in progress" then .in_progress
  else if l == codesOf "done" then .resolved
  else .open_

structure JiraIssueRec where
  externalId : String
  externalUrl : String
  title : String
  issueType : String
  authorEmail : Option String
  assigneeEmail : Option String
  reporterEmail : Option String
  state : JiraState
  priority : Option String
  storyPoints : Option Int
  createdAt : String
  updatedAt : String
  closedAt : Option String
  resolvedAt : Option String
  cycleTimeHours : Option Rat
  labels : List String
  statusName : String
deriving DecidableEq

/-- The exported record built for one Jira issue. -/
def jiraIssueRecord (dateMs : String → Int) (domain : String)
    (issue : JiraIssue) : JiraIssueRec :=
  let state := mapJiraState issue.statusCategoryKey
  { externalId := issue.key
    externalUrl := "https://" ++ domain ++ "/browse/" ++ issue.key
    title := issue.summary
    issueType := issue.issuetypeName
    authorEmail := jsStrOrNull (issue.creator.bind (·.emailAddress))
    assigneeEmail := jsStrOrNull (issue.assignee.bind (·.emailAddress))
    reporterEmail := jsStrOrNull (issue.reporter.bind (·.emailAddress))
    state := state
    priority := jsStrOrNull issue.priorityName
    storyPoints := jsNumOrNull issue.customfield_10016
    createdAt := issue.created
    updatedAt := issue.updated
    closedAt :=
      if state = .closed ∨ state = .resolved then
        some (jsOr issue.resolutiondate issue.updated)
      else none
    resolvedAt := issue.resolutiondate
    cycleTimeHours := calculateCycleTimeHours dateMs issue.created issue.resolutiondate
    labels := issue.labels
    statusName := issue.statusName }

/-! ## Checkpoint/resume manager (spec-modelled) -/

/-- Modelled from the spec: the checkpoint/resume manager is documented in
the repository README (automatic checkpoint after each repo, resume on
re-run, `--no-resume`) but its implementation is not among the provided
sources.  Per spec section 3 and section 4.6, a checkpoint records the
configuration fingerprint -- owner list plus since-date -- of the run that
produced it. -/
structure CheckpointFingerprint where
  owners : List String
  since : Option String
deriving DecidableEq

/-- Modelled from the spec: a persisted checkpoint carries its fingerprint
and the identifiers of the fully completed work units. -/
structure Checkpoint where
  fingerprint : CheckpointFingerprint
  completedUnits : List String
deriving DecidableEq

/-- Modelled from the spec: the start-up decision of the resume manager:
`fresh` (start from unit 0) or `resuming` with the units to skip. -/
inductive ResumeDecision where
  | fresh
  | resuming (completed : List String)
deriving DecidableEq

/-- Modelled from the spec: a checkpoint is valid only if its fingerprint
matches the current run's configuration; otherwise it is discarded and the
run starts fresh. -/
def resumeDecision (saved : Option Checkpoint) (current : CheckpointFingerprint) :
    ResumeDecision :=
  match saved with
  | none => .fresh
  | some cp => if cp.fingerprint = current then .resuming cp.completedUnits else .fresh

/-! ## Concrete run inputs used by counterexamples and witnesses -/

/-- A minimal non-bot PR authored by alice. -/
def cxPR (n : Nat) : GitHubPR :=
  { number := n
    title := "t"
    html_url := "https://github.com/o/svc/pull/" ++ natToStr n
    state := "open"
    user := some ⟨"alice"⟩
    created_at := "2025-01-01T00:00:00Z"
    merged_at := none
    closed_at := none
    additions := some 1
    deletions := some 1
    commits := 1
    review_comments := 0
    labels := []
    requested_reviewers := []
    draft := false }

/-- GraphQL details giving every PR the same single commit `deadbeef`. -/
def cxDetails : Nat → Option PrDetails := fun _ =>
  some { additions := 1
         deletions := 1
         commits := [{ sha := "deadbeef"
                       message := "m"
                       authorUsername := some "alice"
                       authorDate := "2025-01-01T00:00:00Z"
                       additions := none
                       deletions := none }] }

/-- The same commit as seen in the repo-wide history. -/
def cxRepoCommit : GitHubCommit :=
  { sha := "deadbeef"
    html_url := "https://github.com/o/svc/commit/deadbeef"
    commitMessage := "m"
    commitAuthor := some ⟨some "2025-01-01T00:00:00Z"⟩
    commitCommitter := none
    author := some ⟨"alice"⟩
    statsAdditions := none
    statsDeletions := none }

def cxEnv : RunEnv :=
  { dateMs := fun _ => 0
    nowIso := "2025-06-01T00:00:00Z"
    since := none
    profileOf := fun _ => none
    orgEmail := fun _ => none }

/-- Two PRs sharing the commit `deadbeef`, which is also in the repo-wide
history. -/
def cxRepoInput : RepoInput :=
  { repo := "svc"
    prs := [cxPR 1, cxPR 2]
    detailsFor := cxDetails
    reviewsFor := fun _ => []
    repoCommits := [cxRepoCommit]
    issues := [] }

def cxInputs : List OwnerInput := [{ owner := "o", repos := [cxRepoInput] }]

/-- One PR owning `deadbeef`, which is also in the repo-wide history. -/
def c2wRepoInput : RepoInput :=
  { repo := "svc"
    prs := [cxPR 1]
    detailsFor := cxDetails
    reviewsFor := fun _ => []
    repoCommits := [cxRepoCommit]
    issues := [] }

def aliceProfile : GitHubUser :=
  { login := "alice"
    id := 1
    name := some "Alice"
    email := none
    avatar_url := "https://avatars.example/alice"
    type := "User" }

def bobProfile : GitHubUser :=
  { login := "bob"
    id := 2
    name := some "Bob"
    email := none
    avatar_url := "https://avatars.example/bob"
    type := "User" }

/-- A bot-authored PR. -/
def c3PRBot : GitHubPR := { cxPR 3 with user := some ⟨"dependabot[bot]"⟩ }

def c3Env : RunEnv :=
  { cxEnv with profileOf := fun u => if u = "alice" then some aliceProfile else none }

def c3RepoInput : RepoInput :=
  { repo := "svc"
    prs := [cxPR 1, c3PRBot]
    detailsFor := cxDetails
    reviewsFor := fun _ => []
    repoCommits := [cxRepoCommit]
    issues := [] }

def c3Inputs : List OwnerInput := [{ owner := "o", repos := [c3RepoInput] }]

/-- A review by bob, who authors nothing else in the run. -/
def bobReview : GitHubReview :=
  { id := 1
    user := some ⟨"bob"⟩
    state := "APPROVED"
    submitted_at := "2025-01-02T00:00:00Z"
    body := "lgtm" }

def c1Env : RunEnv :=
  { cxEnv with
    profileOf := fun u =>
      if u = "alice" then some aliceProfile
      else if u = "bob" then some bobProfile
      else none }

def c1RepoInput : RepoInput :=
  { repo := "svc"
    prs := [cxPR 1]
    detailsFor := fun _ => none
    reviewsFor := fun n => if n = 1 then [bobReview] else []
    repoCommits := []
    issues := [] }

def c1Inputs : List OwnerInput := [{ owner := "o", repos := [c1RepoInput] }]

/-- A repo `svc` holding PR number 7 (with one review and one PR-path
commit), as found under two different owners. -/
def c5RepoInput : RepoInput :=
  { repo := "svc"
    prs := [cxPR 7]
    detailsFor := cxDetails
    reviewsFor := fun n => if n = 7 then [bobReview] else []
    repoCommits := []
    issues := [] }

def c5Inputs : List OwnerInput :=
  [{ owner := "ownerA", repos := [c5RepoInput] },
   { owner := "ownerB", repos := [c5RepoInput] }]

/-- A concrete resolved issue with no `resolutiondate`. -/
def sampleResolvedIssue : JiraIssue :=
  { key := "PROJ-1"
    summary := "sample"
    statusName := "Done"
    statusCategoryKey := "done"
    issuetypeName := "Task"
    creator := none
    assignee := none
    reporter := none
    created := "2025-01-01T00:00:00Z"
    updated := "2025-01-03T00:00:00Z"
    resolutiondate := none
    labels := []
    priorityName := none
    customfield_10016 := none }

/-- The `gh` CLI's stderr on an authentication failure (HTTP 401): it
matches none of `ghApi`'s special patterns. -/
def ghAuthStderr : String := "gh: HTTP 401: Bad credentials"

/-- An authentication failure on every attempt of a `gh api` call. -/
def ghAuthFailure : Nat → GhOutcome := fun _ => .fail ghAuthStderr ""

/-- The revised Jira exporter's rate-limit handling on every attempt. -/
def jira429Failure : Nat → JiraOutcome := fun _ => .http 429 .ok

/-- A curl-level network failure on every attempt of the revised Jira
exporter. -/
def jiraNetworkFailure : Nat → JiraOutcome :=
  fun _ => .execFail "curl: (7) connection refused"

/-- The backoff base chosen by the revised Jira exporter's `jiraApi` at a
given attempt (0 when the branch returns without waiting). -/
def jiraWaitBase (retries attempt : Nat) (o : JiraOutcome) : Nat :=
  match o with
  | .http status body =>
    if status == 401 || status == 403 then 0
    else if status == 429 then 5000
    else if decide (500 ≤ status) then (if attempt == retries then 0 else 500)
    else
      match body with
      | .ok => 0
      | .apiError => if attempt == retries then 0 else 500
  | .execFail msg =>
    if strIncludes msg "Authentication failed" then 0
    else if attempt == retries then 0
    else if jiraIsNetwork msg then 2000
    else 500

/-- A concrete page oracle: page 1 full, page 2 short, later pages empty. -/
def pagesW : Nat → List Nat :=
  fun p => if p = 1 then List.replicate 100 1 else if p = 2 then [7] else []

/-- A concrete cursor oracle whose first response carries no token. -/
def responsesW : Nat → List Nat × Option String := fun _ => ([5, 6], none)

/-! # Helper lemmas about the pipeline -/

theorem natDigitsGo_ne_nil (fuel n : Nat) : natDigitsGo (fuel + 1) n ≠ [] := by
  unfold natDigitsGo
  split
  · simp
  · simp

theorem natToStr_ne_empty (n : Nat) : natToStr n ≠ "" := by
  intro h
  have : (natDigitsGo (n + 1) n).map Char.ofNat = [] := congrArg String.data h
  exact natDigitsGo_ne_nil n n (List.map_eq_nil_iff.mp this)

theorem jsStrOrNull_eq_some {a : Option String} {u : String} :
    jsStrOrNull a = some u ↔ a = some u ∧ u ≠ "" := by
  cases a with
  | none => simp [jsStrOrNull]
  | some s =>
    by_cases h : s = "" <;> simp [jsStrOrNull, h] <;> rintro rfl <;> simp_all

theorem isBot_empty : isBot "" = false := by decide

/-- Membership in the seen-set accumulator of the first-occurrence dedup. -/
theorem mem_dedupFirstGo {x : String} :
    ∀ {seen l : List String}, x ∈ dedupFirstGo seen l ↔ x ∈ l ∧ x ∉ seen
  | seen, [] => by simp [dedupFirstGo]
  | seen, y :: l => by
    rw [dedupFirstGo]
    split_ifs with h
    · rw [mem_dedupFirstGo]
      constructor
      · rintro ⟨h1, h2⟩
        exact ⟨List.mem_cons_of_mem y h1, h2⟩
      · rintro ⟨h1, h2⟩
        rcases List.mem_cons.mp h1 with rfl | h1
        · exact absurd (List.elem_iff.mp h) h2
        · exact ⟨h1, h2⟩
    · constructor
      · intro hm
        rcases List.mem_cons.mp hm with rfl | hm
        · exact ⟨List.mem_cons_self x l, fun hc => h (List.elem_iff.mpr hc)⟩
        · rw [mem_dedupFirstGo] at hm
          refine ⟨List.mem_cons_of_mem y hm.1, fun hc => hm.2 (List.mem_cons_of_mem y hc)⟩
      · rintro ⟨h1, h2⟩
        rcases List.mem_cons.mp h1 with rfl | h1
        · exact List.mem_cons_self x _
        · by_cases hxy : x = y
          · subst hxy
            exact List.mem_cons_self x _
          · refine List.mem_cons_of_mem y (mem_dedupFirstGo.mpr ⟨h1, ?_⟩)
            intro hc
            rcases List.mem_cons.mp hc with h' | h'
            · exact hxy h'
            · exact h2 h'

theorem mem_dedupFirst {x : String} {l : List String} :
    x ∈ dedupFirst l ↔ x ∈ l := by
  rw [dedupFirst, mem_dedupFirstGo]
  simp

theorem mem_collectUsernames {u : String} {prs : List PRRec} {commits : List CommitRec}
    {issues : List IssueRec} :
    u ∈ collectUsernames prs commits issues ↔ u ∈ rawUsernames prs commits issues := by
  rw [collectUsernames, mem_dedupFirst]

/-- Where a collected username can come from. -/
theorem rawUsernames_sources {u : String} {prs : List PRRec} {commits : List CommitRec}
    {issues : List IssueRec} :
    u ∈ rawUsernames prs commits issues ↔
      u ≠ "" ∧
      ((∃ pr ∈ prs, pr.authorUsername = some u) ∨
       (∃ c ∈ commits, c.authorUsername = some u) ∨
       (∃ i ∈ issues, i.authorUsername = some u ∨ i.assigneeUsername = some u)) := by
  simp only [rawUsernames, List.mem_append, List.mem_filterMap, List.mem_flatMap,
    Option.mem_toList, Option.mem_def, jsStrOrNull_eq_some]
  constructor
  · rintro ((⟨pr, hpr, h, hne⟩ | ⟨c, hc, h, hne⟩) | ⟨i, hi, (⟨h, hne⟩ | ⟨h, hne⟩)⟩)
    · exact ⟨hne, Or.inl ⟨pr, hpr, h⟩⟩
    · exact ⟨hne, Or.inr (Or.inl ⟨c, hc, h⟩)⟩
    · exact ⟨hne, Or.inr (Or.inr ⟨i, hi, Or.inl h⟩)⟩
    · exact ⟨hne, Or.inr (Or.inr ⟨i, hi, Or.inr h⟩)⟩
  · rintro ⟨hne, (⟨pr, hpr, h⟩ | ⟨c, hc, h⟩ | ⟨i, hi, h | h⟩)⟩
    · exact Or.inl (Or.inl ⟨pr, hpr, h, hne⟩)
    · exact Or.inl (Or.inr ⟨c, hc, h, hne⟩)
    · exact Or.inr ⟨i, hi, Or.inl ⟨h, hne⟩⟩
    · exact Or.inr ⟨i, hi, Or.inr ⟨h, hne⟩⟩

/-! ## Per-stream facts -/

theorem repoUnit_prs (env : RunEnv) (owner : String) (ri : RepoInput) :
    (repoUnit env owner ri).prs =
      (keptPrs env.dateMs env.since ri.prs).map
        (mkPRRec env.dateMs ri.detailsFor ri.reviewsFor) := rfl

theorem repoUnit_reviews (env : RunEnv) (owner : String) (ri : RepoInput) :
    (repoUnit env owner ri).reviews =
      (keptPrs env.dateMs env.since ri.prs).flatMap (mkReviewRecs ri.reviewsFor) := rfl

theorem prCommitsOf_eq (env : RunEnv) (owner : String) (ri : RepoInput) :
    prCommitsOf env owner ri =
      (keptPrs env.dateMs env.since ri.prs).flatMap
        (mkPrCommitRecs owner ri.repo ri.detailsFor) := rfl

theorem repoUnit_commits (env : RunEnv) (owner : String) (ri : RepoInput) :
    (repoUnit env owner ri).commits =
      prCommitsOf env owner ri ++
        exportCommits env.nowIso ri.repoCommits
          ((prCommitsOf env owner ri).map (·.sha)) := rfl

theorem repoUnit_issues (env : RunEnv) (owner : String) (ri : RepoInput) :
    (repoUnit env owner ri).issues = exportIssues env.dateMs ri.issues := rfl

/-- One commit record of `mkPrCommitRecs` is attributed to the PR it was
found under. -/
theorem mkPrCommitRecs_attributed {owner repo : String}
    {detailsMap : Nat → Option PrDetails} {pr0 : GitHubPR} {c : CommitRec}
    (hc : c ∈ mkPrCommitRecs owner repo detailsMap pr0) :
    c.prExternalId = some (natToStr pr0.number) := by
  rw [mkPrCommitRecs] at hc
  rcases List.mem_filterMap.mp hc with ⟨dc, _, hmk⟩
  split_ifs at hmk
  cases hmk
  rfl

/-- Every PR-path commit is attributed to the exported record of the PR it
was found under. -/
theorem prCommits_attributed {env : RunEnv} {owner : String} {ri : RepoInput}
    {c : CommitRec} (hc : c ∈ prCommitsOf env owner ri) :
    ∃ pr ∈ (repoUnit env owner ri).prs,
      c.prExternalId = some pr.externalId ∧ pr.externalId ≠ "" := by
  rw [prCommitsOf_eq] at hc
  rcases List.mem_flatMap.mp hc with ⟨pr0, hpr0, hcm⟩
  refine ⟨mkPRRec env.dateMs ri.detailsFor ri.reviewsFor pr0, ?_, ?_, ?_⟩
  · rw [repoUnit_prs]
    exact List.mem_map_of_mem _ hpr0
  · exact mkPrCommitRecs_attributed hcm
  · exact natToStr_ne_empty pr0.number

/-- A direct (repo-stream) commit carries no PR attribution and its sha
avoids the seen-set. -/
theorem exportCommits_shape {nowIso : String} {repoCommits : List GitHubCommit}
    {seenShas : List String} {c : CommitRec}
    (hc : c ∈ exportCommits nowIso repoCommits seenShas) :
    c.prExternalId = none ∧ c.sha ∉ seenShas := by
  rw [exportCommits] at hc
  rcases List.mem_filterMap.mp hc with ⟨rc, _, hmk⟩
  split_ifs at hmk with h1 h2
  cases hmk
  exact ⟨rfl, fun hmem => h1 (List.elem_iff.mpr hmem)⟩

/-- Every PR-path commit record carries a `some` attribution. -/
theorem prCommits_isSome {env : RunEnv} {owner : String} {ri : RepoInput}
    {c : CommitRec} (hc : c ∈ prCommitsOf env owner ri) :
    c.prExternalId.isSome := by
  rcases prCommits_attributed hc with ⟨pr, _, heq, _⟩
  rw [heq]
  rfl

/-! ## Bot-freeness of each stream (before namespacing) -/

theorem keptPrs_nonbot {dateMs : String → Int} {since : Option Int}
    {prs : List GitHubPR} {pr : GitHubPR}
    (h : pr ∈ keptPrs dateMs since prs) : prBotAuthored pr = false := by
  have := (List.mem_filter.mp h).2
  simpa using this

theorem unit_prs_nonbot {env : RunEnv} {owner : String} {ri : RepoInput}
    {pr : PRRec} (hpr : pr ∈ (repoUnit env owner ri).prs) :
    ∀ s, pr.authorUsername = some s → isBot s = false := by
  intro s hs
  rw [repoUnit_prs] at hpr
  rcases List.mem_map.mp hpr with ⟨pr0, hpr0, rfl⟩
  have hbot := keptPrs_nonbot hpr0
  have : jsStrOrNull (pr0.user.map (·.login)) = some s := hs
  rcases jsStrOrNull_eq_some.mp this with ⟨hmap, _⟩
  rcases Option.map_eq_some'.mp hmap with ⟨u, hu, rfl⟩
  rw [prBotAuthored, hu] at hbot
  exact hbot

theorem unit_reviews_nonbot {env : RunEnv} {owner : String} {ri : RepoInput}
    {r : ReviewRec} (hr : r ∈ (repoUnit env owner ri).reviews) :
    ∀ s, r.reviewerUsername = some s → isBot s = false := by
  intro s hs
  rw [repoUnit_reviews] at hr
  rcases List.mem_flatMap.mp hr with ⟨pr0, _, hrm⟩
  rw [mkReviewRecs] at hrm
  rcases List.mem_map.mp hrm with ⟨r0, hr0, rfl⟩
  have hf := (List.mem_filter.mp hr0).2
  simp only [Bool.and_eq_true] at hf
  obtain ⟨hnb, -⟩ := hf
  have : jsStrOrNull (r0.user.map (·.login)) = some s := hs
  rcases jsStrOrNull_eq_some.mp this with ⟨hmap, _⟩
  rcases Option.map_eq_some'.mp hmap with ⟨u, hu, rfl⟩
  rw [hu] at hnb
  simpa using hnb

theorem unit_prCommits_nonbot {env : RunEnv} {owner : String} {ri : RepoInput}
    {c : CommitRec} (hc : c ∈ prCommitsOf env owner ri) :
    ∀ s, c.authorUsername = some s → isBot s = false := by
  intro s hs
  rw [prCommitsOf_eq] at hc
  rcases List.mem_flatMap.mp hc with ⟨pr0, _, hcm⟩
  rw [mkPrCommitRecs] at hcm
  rcases List.mem_filterMap.mp hcm with ⟨dc, _, hmk⟩
  split_ifs at hmk with hbot
  cases hmk
  have : dc.authorUsername = some s := hs
  by_cases hse : s = ""
  · subst hse
    exact isBot_empty
  · rw [this] at hbot
    rw [jsOr] at hbot
    rw [if_neg hse] at hbot
    simpa using hbot

theorem exportCommits_nonbot {nowIso : String} {repoCommits : List GitHubCommit}
    {seenShas : List String} {c : CommitRec}
    (hc : c ∈ exportCommits nowIso repoCommits seenShas) :
    ∀ s, c.authorUsername = some s → isBot s = false := by
  intro s hs
  rw [exportCommits] at hc
  rcases List.mem_filterMap.mp hc with ⟨rc, _, hmk⟩
  split_ifs at hmk with h1 h2
  cases hmk
  have : jsStrOrNull (rc.author.map (·.login)) = some s := hs
  rcases jsStrOrNull_eq_some.mp this with ⟨hmap, hne⟩
  rcases Option.map_eq_some'.mp hmap with ⟨a, ha, rfl⟩
  rw [commitBotAuthored, ha] at h2
  simp only [Bool.and_eq_true, ne_eq, decide_eq_true_eq, not_and] at h2
  cases hb : isBot a.login
  · rfl
  · exact absurd hb (by simpa using h2 hne)

theorem unit_issues_nonbot {env : RunEnv} {owner : String} {ri : RepoInput}
    {i : IssueRec} (hi : i ∈ (repoUnit env owner ri).issues) :
    ∀ s, i.authorUsername = some s ∨ i.assigneeUsername = some s →
      isBot s = false := by
  intro s hs
  rw [repoUnit_issues, exportIssues] at hi
  rcases List.mem_map.mp hi with ⟨i0, hi0, rfl⟩
  have hf := (List.mem_filter.mp hi0).2
  rw [issueBotInvolved] at hf
  simp only [Bool.not_eq_true', Bool.or_eq_false_iff] at hf
  rcases hs with hs | hs
  · have : jsStrOrNull (i0.user.map (·.login)) = some s := hs
    rcases jsStrOrNull_eq_some.mp this with ⟨hmap, _⟩
    rcases Option.map_eq_some'.mp hmap with ⟨u, hu, rfl⟩
    have := hf.1
    rw [hu] at this
    exact this
  · have : jsStrOrNull (i0.assignee.map (·.login)) = some s := hs
    rcases jsStrOrNull_eq_some.mp this with ⟨hmap, _⟩
    rcases Option.map_eq_some'.mp hmap with ⟨u, hu, rfl⟩
    have := hf.2
    rw [hu] at this
    exact this

/-! ## Namespacing preserves every field but the identifiers -/

theorem qualifyWith_prs (q : String) (u : UnitRecords) :
    (qualifyWith q u).prs =
      u.prs.map fun pr => { pr with externalId := q ++ "/" ++ pr.externalId } := rfl

theorem qualifyWith_reviews (q : String) (u : UnitRecords) :
    (qualifyWith q u).reviews =
      u.reviews.map fun r => { r with prExternalId := q ++ "/" ++ r.prExternalId } := rfl

theorem qualifyWith_commits (q : String) (u : UnitRecords) :
    (qualifyWith q u).commits =
      u.commits.map fun c =>
        match c.prExternalId with
        | some pid =>
          if pid = "" then c else { c with prExternalId := some (q ++ "/" ++ pid) }
        | none => c := rfl

theorem qualifyWith_issues (q : String) (u : UnitRecords) :
    (qualifyWith q u).issues =
      u.issues.map fun i => { i with externalId := q ++ "/" ++ i.externalId } := rfl

theorem qualifyRecords_cases (mo mr : Bool) (o rep : String) (u : UnitRecords) :
    qualifyRecords mo mr o rep u =
      qualifyWith (if mo then o ++ "/" ++ rep else rep) u ∨
    qualifyRecords mo mr o rep u = u := by
  rw [qualifyRecords]
  by_cases h : (mo || mr) = true
  · rw [if_pos h]
    exact Or.inl rfl
  · rw [if_neg h]
    exact Or.inr rfl

theorem qualify_prs_author {mo mr : Bool} {o rep : String} {u : UnitRecords}
    {x : PRRec} (hx : x ∈ (qualifyRecords mo mr o rep u).prs) :
    ∃ y ∈ u.prs, x.authorUsername = y.authorUsername := by
  rcases qualifyRecords_cases mo mr o rep u with h | h <;> rw [h] at hx
  · rw [qualifyWith_prs] at hx
    rcases List.mem_map.mp hx with ⟨y, hy, rfl⟩
    exact ⟨y, hy, rfl⟩
  · exact ⟨x, hx, rfl⟩

theorem qualify_reviews_reviewer {mo mr : Bool} {o rep : String} {u : UnitRecords}
    {x : ReviewRec} (hx : x ∈ (qualifyRecords mo mr o rep u).reviews) :
    ∃ y ∈ u.reviews, x.reviewerUsername = y.reviewerUsername := by
  rcases qualifyRecords_cases mo mr o rep u with h | h <;> rw [h] at hx
  · rw [qualifyWith_reviews] at hx
    rcases List.mem_map.mp hx with ⟨y, hy, rfl⟩
    exact ⟨y, hy, rfl⟩
  · exact ⟨x, hx, rfl⟩

theorem qualify_commits_author {mo mr : Bool} {o rep : String} {u : UnitRecords}
    {x : CommitRec} (hx : x ∈ (qualifyRecords mo mr o rep u).commits) :
    ∃ y ∈ u.commits, x.authorUsername = y.authorUsername := by
  rcases qualifyRecords_cases mo mr o rep u with h | h <;> rw [h] at hx
  · rw [qualifyWith_commits] at hx
    rcases List.mem_map.mp hx with ⟨y, hy, rfl⟩
    refine ⟨y, hy, ?_⟩
    cases y.prExternalId with
    | none => rfl
    | some pid =>
      dsimp only
      split_ifs <;> rfl
  · exact ⟨x, hx, rfl⟩

theorem qualify_issues_users {mo mr : Bool} {o rep : String} {u : UnitRecords}
    {x : IssueRec} (hx : x ∈ (qualifyRecords mo mr o rep u).issues) :
    ∃ y ∈ u.issues, x.authorUsername = y.authorUsername ∧
      x.assigneeUsername = y.assigneeUsername := by
  rcases qualifyRecords_cases mo mr o rep u with h | h <;> rw [h] at hx
  · rw [qualifyWith_issues] at hx
    rcases List.mem_map.mp hx with ⟨y, hy, rfl⟩
    exact ⟨y, hy, rfl, rfl⟩
  · exact ⟨x, hx, rfl, rfl⟩

/-! ## Payload-level composition -/

theorem runExport_pullRequests (env : RunEnv) (inputs : List OwnerInput) :
    (runExport env inputs).pullRequests = (allUnits env inputs).flatMap (·.prs) := rfl

theorem runExport_commits (env : RunEnv) (inputs : List OwnerInput) :
    (runExport env inputs).commits = (allUnits env inputs).flatMap (·.commits) := rfl

theorem runExport_issues (env : RunEnv) (inputs : List OwnerInput) :
    (runExport env inputs).issues = (allUnits env inputs).flatMap (·.issues) := rfl

theorem runExport_reviews (env : RunEnv) (inputs : List OwnerInput) :
    (runExport env inputs).reviews = (allUnits env inputs).flatMap (·.reviews) := rfl

theorem runExport_contributors (env : RunEnv) (inputs : List OwnerInput) :
    (runExport env inputs).contributors =
      (runUsernames env inputs).filterMap
        (fun username => (env.profileOf username).map (mkContributor env.orgEmail)) := rfl

theorem mem_allUnits {env : RunEnv} {inputs : List OwnerInput} {u : UnitRecords} :
    u ∈ allUnits env inputs ↔
      ∃ oi ∈ inputs, ∃ ri ∈ oi.repos,
        u = qualifyRecords (decide (1 < inputs.length))
          (decide (1 < oi.repos.length)) oi.owner ri.repo (repoUnit env oi.owner ri) := by
  rw [allUnits]
  simp only [List.mem_flatMap, List.mem_map]
  constructor
  · rintro ⟨oi, hoi, ri, hri, heq⟩
    exact ⟨oi, hoi, ri, hri, heq.symm⟩
  · rintro ⟨oi, hoi, ri, hri, heq⟩
    exact ⟨oi, hoi, ri, hri, heq.symm⟩

theorem runExport_prs_nonbot (env : RunEnv) (inputs : List OwnerInput) :
    ∀ pr ∈ (runExport env inputs).pullRequests,
      ∀ s, pr.authorUsername = some s → isBot s = false := by
  intro pr hpr s hs
  rw [runExport_pullRequests] at hpr
  rcases List.mem_flatMap.mp hpr with ⟨un, hun, hpru⟩
  rcases mem_allUnits.mp hun with ⟨oi, _, ri, _, rfl⟩
  rcases qualify_prs_author hpru with ⟨y, hy, heq⟩
  exact unit_prs_nonbot hy s (heq ▸ hs)

theorem runExport_commits_nonbot (env : RunEnv) (inputs : List OwnerInput) :
    ∀ c ∈ (runExport env inputs).commits,
      ∀ s, c.authorUsername = some s → isBot s = false := by
  intro c hc s hs
  rw [runExport_commits] at hc
  rcases List.mem_flatMap.mp hc with ⟨un, hun, hcu⟩
  rcases mem_allUnits.mp hun with ⟨oi, _, ri, _, rfl⟩
  rcases qualify_commits_author hcu with ⟨y, hy, heq⟩
  rw [repoUnit_commits] at hy
  rcases List.mem_append.mp hy with h | h
  · exact unit_prCommits_nonbot h s (heq ▸ hs)
  · exact exportCommits_nonbot h s (heq ▸ hs)

theorem runExport_reviews_nonbot (env : RunEnv) (inputs : List OwnerInput) :
    ∀ r ∈ (runExport env inputs).reviews,
      ∀ s, r.reviewerUsername = some s → isBot s = false := by
  intro r hr s hs
  rw [runExport_reviews] at hr
  rcases List.mem_flatMap.mp hr with ⟨un, hun, hru⟩
  rcases mem_allUnits.mp hun with ⟨oi, _, ri, _, rfl⟩
  rcases qualify_reviews_reviewer hru with ⟨y, hy, heq⟩
  exact unit_reviews_nonbot hy s (heq ▸ hs)

theorem runExport_issues_nonbot (env : RunEnv) (inputs : List OwnerInput) :
    ∀ i ∈ (runExport env inputs).issues,
      ∀ s, i.authorUsername = some s ∨ i.assigneeUsername = some s →
        isBot s = false := by
  intro i hi s hs
  rw [runExport_issues] at hi
  rcases List.mem_flatMap.mp hi with ⟨un, hun, hiu⟩
  rcases mem_allUnits.mp hun with ⟨oi, _, ri, _, rfl⟩
  rcases qualify_issues_users hiu with ⟨y, hy, heq1, heq2⟩
  rcases hs with hs | hs
  · exact unit_issues_nonbot hy s (Or.inl (heq1 ▸ hs))
  · exact unit_issues_nonbot hy s (Or.inr (heq2 ▸ hs))

/-- Every collected username is non-bot and non-empty, and is the value of
some username field of the accumulated records. -/
theorem runUsernames_nonbot (env : RunEnv) (inputs : List OwnerInput) :
    ∀ u ∈ runUsernames env inputs, u ≠ "" ∧ isBot u = false := by
  intro u hu
  rw [runUsernames, mem_collectUsernames, rawUsernames_sources] at hu
  rcases hu with ⟨hne, ⟨pr, hpr, h⟩ | ⟨c, hc, h⟩ | ⟨i, hi, h⟩⟩
  · exact ⟨hne, runExport_prs_nonbot env inputs pr hpr u h⟩
  · exact ⟨hne, runExport_commits_nonbot env inputs c hc u h⟩
  · exact ⟨hne, runExport_issues_nonbot env inputs i hi u h⟩

/-- A profile fetched for every collected username yields a contributor
entry for it (when the profile's login round-trips). -/
theorem contributor_for_username (env : RunEnv) (inputs : List OwnerInput)
    (H1 : ∀ u ∈ runUsernames env inputs, (env.profileOf u).isSome)
    (H2 : ∀ u ∈ runUsernames env inputs,
      ((env.profileOf u).all fun p => p.login == u) = true) :
    ∀ u ∈ runUsernames env inputs,
      ∃ ct ∈ (runExport env inputs).contributors, ct.externalUsername = u := by
  intro u hu
  obtain ⟨p, hp⟩ := Option.isSome_iff_exists.mp (H1 u hu)
  refine ⟨mkContributor env.orgEmail p, ?_, ?_⟩
  · rw [runExport_contributors]
    refine List.mem_filterMap.mpr ⟨u, hu, ?_⟩
    rw [hp]
    rfl
  · have hH := H2 u hu
    rw [hp] at hH
    simpa [Option.all, mkContributor] using hH

/-! ## Username fields of exported records are never empty strings -/

theorem unit_prs_author_ne {env : RunEnv} {owner : String} {ri : RepoInput}
    {pr : PRRec} (hpr : pr ∈ (repoUnit env owner ri).prs) :
    ∀ s, pr.authorUsername = some s → s ≠ "" := by
  intro s hs
  rw [repoUnit_prs] at hpr
  rcases List.mem_map.mp hpr with ⟨pr0, _, rfl⟩
  have : jsStrOrNull (pr0.user.map (·.login)) = some s := hs
  exact (jsStrOrNull_eq_some.mp this).2

theorem unit_issues_users_ne {env : RunEnv} {owner : String} {ri : RepoInput}
    {i : IssueRec} (hi : i ∈ (repoUnit env owner ri).issues) :
    ∀ s, i.authorUsername = some s ∨ i.assigneeUsername = some s → s ≠ "" := by
  intro s hs
  rw [repoUnit_issues, exportIssues] at hi
  rcases List.mem_map.mp hi with ⟨i0, _, rfl⟩
  rcases hs with hs | hs
  · have : jsStrOrNull (i0.user.map (·.login)) = some s := hs
    exact (jsStrOrNull_eq_some.mp this).2
  · have : jsStrOrNull (i0.assignee.map (·.login)) = some s := hs
    exact (jsStrOrNull_eq_some.mp this).2

/-! ## Reference resolution inside one unit and through namespacing -/

/-- Every review of one unit points at an exported PR of the same unit. -/
theorem unit_reviews_resolve {env : RunEnv} {owner : String} {ri : RepoInput}
    {r : ReviewRec} (hr : r ∈ (repoUnit env owner ri).reviews) :
    ∃ pr ∈ (repoUnit env owner ri).prs, pr.externalId = r.prExternalId := by
  rw [repoUnit_reviews] at hr
  rcases List.mem_flatMap.mp hr with ⟨pr0, hpr0, hrm⟩
  rw [mkReviewRecs] at hrm
  rcases List.mem_map.mp hrm with ⟨r0, _, rfl⟩
  refine ⟨mkPRRec env.dateMs ri.detailsFor ri.reviewsFor pr0, ?_, rfl⟩
  rw [repoUnit_prs]
  exact List.mem_map_of_mem _ hpr0

/-- Every attributed commit of one unit points at an exported PR of the
same unit, with a non-empty identifier. -/
theorem unit_commits_resolve {env : RunEnv} {owner : String} {ri : RepoInput}
    {c : CommitRec} (hc : c ∈ (repoUnit env owner ri).commits) :
    ∀ pid, c.prExternalId = some pid →
      pid ≠ "" ∧ ∃ pr ∈ (repoUnit env owner ri).prs, pr.externalId = pid := by
  intro pid hpid
  rw [repoUnit_commits] at hc
  rcases List.mem_append.mp hc with h | h
  · rcases prCommits_attributed h with ⟨pr, hpr, heq, hne⟩
    rw [hpid] at heq
    cases heq
    exact ⟨hne, pr, hpr, rfl⟩
  · rw [(exportCommits_shape h).1] at hpid
    cases hpid

/-- Review resolution survives the namespacing rewrite. -/
theorem qualify_reviews_resolve {mo mr : Bool} {o rep : String} {u : UnitRecords}
    (hu : ∀ r ∈ u.reviews, ∃ pr ∈ u.prs, pr.externalId = r.prExternalId) :
    ∀ r ∈ (qualifyRecords mo mr o rep u).reviews,
      ∃ pr ∈ (qualifyRecords mo mr o rep u).prs, pr.externalId = r.prExternalId := by
  intro r hr
  rcases qualifyRecords_cases mo mr o rep u with h | h <;> rw [h] at hr ⊢
  · rw [qualifyWith_reviews] at hr
    rcases List.mem_map.mp hr with ⟨r0, hr0, rfl⟩
    rcases hu r0 hr0 with ⟨pr, hpr, heq⟩
    refine ⟨{ pr with externalId :=
      (if mo then o ++ "/" ++ rep else rep) ++ "/" ++ pr.externalId }, ?_, ?_⟩
    · rw [qualifyWith_prs]
      exact List.mem_map_of_mem _ hpr
    · dsimp only
      rw [heq]
  · exact hu r hr

/-- Commit attribution resolution survives the namespacing rewrite. -/
theorem qualify_commits_resolve {mo mr : Bool} {o rep : String} {u : UnitRecords}
    (hu : ∀ c ∈ u.commits, ∀ pid, c.prExternalId = some pid →
      pid ≠ "" ∧ ∃ pr ∈ u.prs, pr.externalId = pid) :
    ∀ c ∈ (qualifyRecords mo mr o rep u).commits, ∀ pid, c.prExternalId = some pid →
      ∃ pr ∈ (qualifyRecords mo mr o rep u).prs, pr.externalId = pid := by
  intro c hc pid hpid
  rcases qualifyRecords_cases mo mr o rep u with h | h <;> rw [h] at hc ⊢
  · rw [qualifyWith_commits] at hc
    rcases List.mem_map.mp hc with ⟨c0, hc0, rfl⟩
    cases hp0 : c0.prExternalId with
    | none =>
      rw [hp0] at hpid
      dsimp only at hpid
      rw [hp0] at hpid
      exact absurd hpid (by simp)
    | some pid0 =>
      rcases hu c0 hc0 pid0 hp0 with ⟨hne0, pr, hpr, heq⟩
      rw [hp0] at hpid
      dsimp only at hpid
      rw [if_neg hne0] at hpid
      have hpid' : some ((if mo then o ++ "/" ++ rep else rep) ++ "/" ++ pid0) =
          some pid := hpid
      injection hpid' with hp
      subst hp
      refine ⟨{ pr with externalId :=
        (if mo then o ++ "/" ++ rep else rep) ++ "/" ++ pr.externalId }, ?_, ?_⟩
      · rw [qualifyWith_prs]
        exact List.mem_map_of_mem _ hpr
      · dsimp only
        rw [heq]
  · rcases hu c hc pid hpid with ⟨_, pr, hpr, heq⟩
    exact ⟨pr, hpr, heq⟩

/-! ## C4: cycle-time computation -/

theorem calc_cycle_eval (dateMs : String → Int) (a b : String) (h : b ≠ "") :
    calculateCycleTimeHours dateMs a (some b) =
      some (toFixed2 (((dateMs b - dateMs a : Int) : Rat) / (1000 * 60 * 60))) := by
  simp [calculateCycleTimeHours, h]

/-- C4: for every record, `cycleTimeHours` equals the terminal-minus-created
difference expressed in hours and rounded to two decimal places, and is null
when no terminal timestamp exists; negative and zero durations are
preserved un-clamped.  The worked example (created 2025-01-01T00:00:00Z,
resolved 2025-01-02T12:00:00Z) yields 36; an unresolved record yields null;
the reversed example yields -36 and a same-instant resolution yields 0. -/
theorem claim_C4_cycle_time (dateMs : String → Int) (s : String) :
    calculateCycleTimeHours dateMs s none = none ∧
    (∀ e : String, e ≠ "" →
      calculateCycleTimeHours dateMs s (some e) =
        some (claimCycleHours (dateMs s) (dateMs e))) ∧
    calculateCycleTimeHours exampleDateMs "2025-01-01T00:00:00Z"
      (some "2025-01-02T12:00:00Z") = some 36 ∧
    calculateCycleTimeHours exampleDateMs "2025-01-01T00:00:00Z" none = none ∧
    calculateCycleTimeHours exampleDateMs "2025-01-02T12:00:00Z"
      (some "2025-01-01T00:00:00Z") = some (-36) ∧
    calculateCycleTimeHours exampleDateMs "2025-01-01T00:00:00Z"
      (some "2025-01-01T00:00:00Z") = some 0 := by
  have h1 : exampleDateMs "2025-01-01T00:00:00Z" = 1735689600000 := by rfl
  have h2 : exampleDateMs "2025-01-02T12:00:00Z" = 1735819200000 := by rfl
  refine ⟨rfl, ?_, ?_, rfl, ?_, ?_⟩
  · intro e he
    rw [calc_cycle_eval dateMs s e he, claimCycleHours]
    norm_num
  · rw [calc_cycle_eval _ _ _ (by decide), h1, h2]
    norm_num [toFixed2, round_eq]
  · rw [calc_cycle_eval _ _ _ (by decide), h1, h2]
    norm_num [toFixed2, round_eq]
  · rw [calc_cycle_eval _ _ _ (by decide), h1]
    norm_num [toFixed2, round_eq]

theorem claim_C4_cycle_time_witness :
    ("2025-01-02T12:00:00Z" : String) ≠ "" ∧
    calculateCycleTimeHours exampleDateMs "2025-01-01T00:00:00Z"
        (some "2025-01-02T12:00:00Z") =
      some (claimCycleHours (exampleDateMs "2025-01-01T00:00:00Z")
        (exampleDateMs "2025-01-02T12:00:00Z")) :=
  ⟨by decide,
   (claim_C4_cycle_time exampleDateMs "2025-01-01T00:00:00Z").2.1
     "2025-01-02T12:00:00Z" (by decide)⟩

/-! ## C9: checkpoint fingerprint invalidation (spec-modelled) -/

/-- C9: a persisted checkpoint whose configuration fingerprint (owner list +
since-date) differs from the current run's configuration is discarded and
the run starts fresh; in particular a checkpoint for scope {ownerA} is
treated as fresh against scope {ownerA, ownerB} or a different
since-date. -/
theorem claim_C9_fingerprint (cp : Checkpoint) (cur : CheckpointFingerprint)
    (h : cp.fingerprint ≠ cur) :
    resumeDecision (some cp) cur = .fresh ∧
    resumeDecision
        (some { fingerprint := { owners := ["ownerA"], since := none },
                completedUnits := ["unitA"] })
        { owners := ["ownerA", "ownerB"], since := none } = .fresh ∧
    resumeDecision
        (some { fingerprint := { owners := ["ownerA"], since := none },
                completedUnits := ["unitA"] })
        { owners := ["ownerA"], since := some "2025-01-01" } = .fresh := by
  refine ⟨?_, by decide, by decide⟩
  simp [resumeDecision, h]

theorem claim_C9_fingerprint_witness :
    ({ owners := ["ownerA"], since := none } : CheckpointFingerprint) ≠
      { owners := ["ownerA", "ownerB"], since := none } ∧
    resumeDecision
        (some { fingerprint := { owners := ["ownerA"], since := none },
                completedUnits := ["unitA"] })
        { owners := ["ownerA", "ownerB"], since := none } = .fresh :=
  ⟨by decide,
   (claim_C9_fingerprint
      { fingerprint := { owners := ["ownerA"], since := none },
        completedUnits := ["unitA"] }
      { owners := ["ownerA", "ownerB"], since := none } (by decide)).1⟩

/-! ## C10: Jira `closedAt` versus `cycleTimeHours` -/

/-- C10: for every issue produced by the Jira exporter, `closedAt` is
non-null exactly when the computed state is resolved or closed; when the
state is resolved but the source `resolutiondate` is absent, `closedAt`
falls back to the issue's `updated` timestamp while `cycleTimeHours`
(computed only from `resolutiondate`) remains null. -/
theorem claim_C10_jira_closedAt (dateMs : String → Int) (domain : String)
    (issue : JiraIssue) :
    ((jiraIssueRecord dateMs domain issue).closedAt ≠ none ↔
      ((jiraIssueRecord dateMs domain issue).state = .resolved ∨
       (jiraIssueRecord dateMs domain issue).state = .closed)) ∧
    ((jiraIssueRecord dateMs domain issue).state = .resolved →
      issue.resolutiondate = none →
      (jiraIssueRecord dateMs domain issue).closedAt = some issue.updated ∧
      (jiraIssueRecord dateMs domain issue).cycleTimeHours = none) := by
  constructor
  · by_cases h : mapJiraState issue.statusCategoryKey = .closed ∨
        mapJiraState issue.statusCategoryKey = .resolved
    · simp [jiraIssueRecord, h, Or.comm.mp h]
    · simp only [jiraIssueRecord, if_neg h, ne_eq, not_true_eq_false, false_iff]
      intro hc
      exact h (Or.comm.mp hc)
  · intro hres hrd
    have h : mapJiraState issue.statusCategoryKey = .closed ∨
        mapJiraState issue.statusCategoryKey = .resolved := by
      right
      simpa [jiraIssueRecord] using hres
    constructor
    · simp [jiraIssueRecord, h, hrd, jsOr]
    · simp [jiraIssueRecord, hrd, calculateCycleTimeHours]

theorem claim_C10_jira_closedAt_witness :
    (jiraIssueRecord exampleDateMs "x.atlassian.net" sampleResolvedIssue).closedAt =
      some "2025-01-03T00:00:00Z" ∧
    (jiraIssueRecord exampleDateMs "x.atlassian.net" sampleResolvedIssue).cycleTimeHours =
      none :=
  (claim_C10_jira_closedAt exampleDateMs "x.atlassian.net" sampleResolvedIssue).2
    (by decide) rfl

/-! ## C6 and C7: retry classification and backoff -/

/-- C6 counterexample: `ghApi` classifies an HTTP 401 from the `gh` CLI as a
generic failure and retries it twice with the 500 ms-base backoff (three
attempts, waits of 1000 ms and 2000 ms) instead of short-circuiting on the
first attempt with no wait. -/
theorem claim_C6_counterexample :
    ghApiRun ghAuthFailure 3 = (.err ghAuthStderr "", 3, [(1, 1000), (2, 2000)]) ∧
    ¬((ghApiRun ghAuthFailure 3).2.1 = 1 ∧ (ghApiRun ghAuthFailure 3).2.2 = []) := by
  constructor
  · decide
  · decide

/-- C6 (amended): in the revised Jira exporter, an HTTP 401/403 response is
propagated as a fatal authentication error on the first attempt, with no
further attempts and no backoff wait; the GitHub `ghApi` client and the
older `sync-jira.ts` client instead classify an authentication failure as a
generic error and retry it under the 500 ms-base backoff until the attempts
run out. -/
theorem claim_C6_auth_short_circuit (oracle : Nat → JiraOutcome)
    (retries status : Nat) (body : JiraBody) (hr : 1 ≤ retries)
    (h1 : oracle 1 = .http status body) (hs : status = 401 ∨ status = 403) :
    jiraApiRun oracle retries = (.authFatal, 1, []) ∧
    ghApiRun ghAuthFailure 3 = (.err ghAuthStderr "", 3, [(1, 1000), (2, 2000)]) ∧
    oldJiraApiRun (fun _ => false) 3 = (.errFatal, 3, [(1, 1000), (2, 2000)]) := by
  refine ⟨?_, by decide, by decide⟩
  obtain ⟨k, rfl⟩ : ∃ k, retries = k + 1 := ⟨retries - 1, by omega⟩
  show jiraApiGo oracle (k + 1) (k + 1) 1 [] = (.authFatal, 1, [])
  rw [jiraApiGo, h1]
  rcases hs with rfl | rfl <;> simp

theorem claim_C6_auth_short_circuit_witness :
    jiraApiRun (fun _ => .http 401 .ok) 3 = (.authFatal, 1, []) :=
  (claim_C6_auth_short_circuit (fun _ => .http 401 .ok) 3 401 .ok
    (by decide) rfl (Or.inl rfl)).1

/-- C7 counterexample: in the revised Jira exporter the rate-limit backoff
base (5000 ms, first wait 10000 ms) is longer, not strictly shorter, than
the network-error base (2000 ms, first wait 4000 ms). -/
theorem claim_C7_counterexample :
    (jiraApiRun jira429Failure 3).2.2 = [(1, 10000), (2, 20000), (3, 40000)] ∧
    (jiraApiRun jiraNetworkFailure 3).2.2 = [(1, 4000), (2, 8000)] ∧
    ¬(10000 < 4000) := by
  refine ⟨by decide, by decide, by decide⟩

theorem ghWaitBase_fail (retries attempt : Nat) (stderr stdout : String) :
    ghWaitBase retries attempt (.fail stderr stdout) =
      if ghIsNotFound stdout then 0
      else if ghIsConnectionError stderr && decide (attempt < retries) then 2000
      else if ghIsRateLimited stderr stdout && decide (attempt < retries) then 1000
      else if attempt == retries then 0
      else 500 := rfl

theorem ghApiGo_waits_spec (oracle : Nat → GhOutcome) (retries : Nat) :
    ∀ fuel attempt waits,
      (∀ e ∈ waits, e.2 = 2 ^ e.1 * ghWaitBase retries e.1 (oracle e.1)) →
      ∀ e ∈ (ghApiGo oracle retries fuel attempt waits).2.2,
        e.2 = 2 ^ e.1 * ghWaitBase retries e.1 (oracle e.1)
  | 0, _, _, hw => hw
  | fuel + 1, attempt, waits, hw => by
    have push : ∀ b : Nat, b = ghWaitBase retries attempt (oracle attempt) →
        ∀ e ∈ waits ++ [(attempt, 2 ^ attempt * b)],
          e.2 = 2 ^ e.1 * ghWaitBase retries e.1 (oracle e.1) := by
      intro b hb e he
      rcases List.mem_append.mp he with h | h
      · exact hw e h
      · rcases List.mem_singleton.mp h with rfl
        rw [hb]
    rw [ghApiGo]
    cases ho : oracle attempt with
    | ok body => exact hw
    | fail stderr stdout =>
      dsimp only
      split_ifs with h1 h2 h3 h4
      · exact hw
      · exact ghApiGo_waits_spec oracle retries fuel (attempt + 1) _
          (push 2000 (by rw [ho, ghWaitBase_fail, if_neg h1, if_pos h2]))
      · exact ghApiGo_waits_spec oracle retries fuel (attempt + 1) _
          (push 1000 (by rw [ho, ghWaitBase_fail, if_neg h1, if_neg h2, if_pos h3]))
      · exact hw
      · exact ghApiGo_waits_spec oracle retries fuel (attempt + 1) _
          (push 500 (by rw [ho, ghWaitBase_fail, if_neg h1, if_neg h2, if_neg h3, if_neg h4]))

theorem jiraWaitBase_http_ok (retries attempt status : Nat) :
    jiraWaitBase retries attempt (.http status .ok) =
      if status == 401 || status == 403 then 0
      else if status == 429 then 5000
      else if decide (500 ≤ status) then (if attempt == retries then 0 else 500)
      else 0 := rfl

theorem jiraWaitBase_http_apiError (retries attempt status : Nat) :
    jiraWaitBase retries attempt (.http status .apiError) =
      if status == 401 || status == 403 then 0
      else if status == 429 then 5000
      else if decide (500 ≤ status) then (if attempt == retries then 0 else 500)
      else if attempt == retries then 0
      else 500 := rfl

theorem jiraWaitBase_execFail (retries attempt : Nat) (msg : String) :
    jiraWaitBase retries attempt (.execFail msg) =
      if strIncludes msg "Authentication failed" then 0
      else if attempt == retries then 0
      else if jiraIsNetwork msg then 2000
      else 500 := rfl

theorem jiraApiGo_waits_spec (oracle : Nat → JiraOutcome) (retries : Nat) :
    ∀ fuel attempt waits,
      (∀ e ∈ waits, e.2 = 2 ^ e.1 * jiraWaitBase retries e.1 (oracle e.1)) →
      ∀ e ∈ (jiraApiGo oracle retries fuel attempt waits).2.2,
        e.2 = 2 ^ e.1 * jiraWaitBase retries e.1 (oracle e.1)
  | 0, _, _, hw => hw
  | fuel + 1, attempt, waits, hw => by
    have push : ∀ b : Nat, b = jiraWaitBase retries attempt (oracle attempt) →
        ∀ e ∈ waits ++ [(attempt, 2 ^ attempt * b)],
          e.2 = 2 ^ e.1 * jiraWaitBase retries e.1 (oracle e.1) := by
      intro b hb e he
      rcases List.mem_append.mp he with h | h
      · exact hw e h
      · rcases List.mem_singleton.mp h with rfl
        rw [hb]
    rw [jiraApiGo]
    cases ho : oracle attempt with
    | http status body =>
      cases body with
      | ok =>
        dsimp only
        split_ifs with h1 h2 h3 h4
        · exact hw
        · exact jiraApiGo_waits_spec oracle retries fuel (attempt + 1) _
            (push 5000 (by rw [ho, jiraWaitBase_http_ok, if_neg h1, if_pos h2]))
        · exact hw
        · exact jiraApiGo_waits_spec oracle retries fuel (attempt + 1) _
            (push 500
              (by rw [ho, jiraWaitBase_http_ok, if_neg h1, if_neg h2, if_pos h3, if_neg h4]))
        · exact hw
      | apiError =>
        dsimp only
        split_ifs with h1 h2 h3 h4 h5
        · exact hw
        · exact jiraApiGo_waits_spec oracle retries fuel (attempt + 1) _
            (push 5000 (by rw [ho, jiraWaitBase_http_apiError, if_neg h1, if_pos h2]))
        · exact hw
        · exact jiraApiGo_waits_spec oracle retries fuel (attempt + 1) _
            (push 500
              (by rw [ho, jiraWaitBase_http_apiError, if_neg h1, if_neg h2, if_pos h3,
                if_neg h4]))
        · exact hw
        · exact jiraApiGo_waits_spec oracle retries fuel (attempt + 1) _
            (push 500
              (by rw [ho, jiraWaitBase_http_apiError, if_neg h1, if_neg h2, if_neg h3,
                if_neg h5]))
    | execFail msg =>
      dsimp only
      split_ifs with h1 h2 h3
      · exact hw
      · exact hw
      · exact jiraApiGo_waits_spec oracle retries fuel (attempt + 1) _
          (push 2000
            (by rw [ho, jiraWaitBase_execFail, if_neg h1, if_neg h2, if_pos h3]))
      · exact jiraApiGo_waits_spec oracle retries fuel (attempt + 1) _
          (push 500
            (by rw [ho, jiraWaitBase_execFail, if_neg h1, if_neg h2, if_neg h3]))

theorem ghApiGo_attempts_le (oracle : Nat → GhOutcome) (retries : Nat) :
    ∀ fuel attempt waits,
      (ghApiGo oracle retries fuel attempt waits).2.1 ≤ attempt - 1 + fuel
  | 0, attempt, waits => by
    show attempt - 1 ≤ attempt - 1 + 0
    omega
  | fuel + 1, attempt, waits => by
    rw [ghApiGo]
    have ih1 := ghApiGo_attempts_le oracle retries fuel (attempt + 1)
    cases oracle attempt with
    | ok body =>
      show attempt ≤ attempt - 1 + (fuel + 1)
      omega
    | fail stderr stdout =>
      dsimp only
      split_ifs
      · show attempt ≤ attempt - 1 + (fuel + 1)
        omega
      · exact le_trans (ih1 _) (by omega)
      · exact le_trans (ih1 _) (by omega)
      · show attempt ≤ attempt - 1 + (fuel + 1)
        omega
      · exact le_trans (ih1 _) (by omega)

theorem jiraApiGo_attempts_le (oracle : Nat → JiraOutcome) (retries : Nat) :
    ∀ fuel attempt waits,
      (jiraApiGo oracle retries fuel attempt waits).2.1 ≤ attempt - 1 + fuel
  | 0, attempt, waits => by
    show attempt - 1 ≤ attempt - 1 + 0
    omega
  | fuel + 1, attempt, waits => by
    rw [jiraApiGo]
    have ih1 := jiraApiGo_attempts_le oracle retries fuel (attempt + 1)
    cases oracle attempt with
    | http status body =>
      cases body with
      | ok =>
        dsimp only
        split_ifs
        · show attempt ≤ attempt - 1 + (fuel + 1)
          omega
        · exact le_trans (ih1 _) (by omega)
        · show attempt ≤ attempt - 1 + (fuel + 1)
          omega
        · exact le_trans (ih1 _) (by omega)
        · show attempt ≤ attempt - 1 + (fuel + 1)
          omega
      | apiError =>
        dsimp only
        split_ifs
        · show attempt ≤ attempt - 1 + (fuel + 1)
          omega
        · exact le_trans (ih1 _) (by omega)
        · show attempt ≤ attempt - 1 + (fuel + 1)
          omega
        · exact le_trans (ih1 _) (by omega)
        · show attempt ≤ attempt - 1 + (fuel + 1)
          omega
        · exact le_trans (ih1 _) (by omega)
    | execFail msg =>
      dsimp only
      split_ifs
      · show attempt ≤ attempt - 1 + (fuel + 1)
        omega
      · show attempt ≤ attempt - 1 + (fuel + 1)
        omega
      · exact le_trans (ih1 _) (by omega)
      · exact le_trans (ih1 _) (by omega)

/-- C7 (amended): every transient failure waits `base * 2^attempt` before
the next attempt and the attempts are capped at the retry count (default 3);
in `ghApi` the rate-limit base (1000 ms) is strictly shorter than the
network-error base (2000 ms), but in the revised Jira exporter the
rate-limit base (5000 ms, a deliberate hard backoff) is longer than its
network-error base (2000 ms), and the older `sync-jira.ts` client uses the
single base 500 ms with no distinction. -/
theorem claim_C7_backoff (oracle : Nat → GhOutcome) (joracle : Nat → JiraOutcome)
    (retries attempt : Nat) (h : attempt < retries) :
    (∀ e ∈ (ghApiRun oracle retries).2.2,
      e.2 = 2 ^ e.1 * ghWaitBase retries e.1 (oracle e.1)) ∧
    (∀ e ∈ (jiraApiRun joracle retries).2.2,
      e.2 = 2 ^ e.1 * jiraWaitBase retries e.1 (joracle e.1)) ∧
    (ghApiRun oracle retries).2.1 ≤ retries ∧
    (jiraApiRun joracle retries).2.1 ≤ retries ∧
    ghWaitBase retries attempt (.fail "read: connection reset" "") = 2000 ∧
    ghWaitBase retries attempt (.fail "" "API rate limit exceeded") = 1000 ∧
    jiraWaitBase retries attempt (.http 429 .ok) = 5000 ∧
    jiraWaitBase retries attempt (.execFail "curl: (7) connection refused") = 2000 ∧
    1000 < 2000 ∧ ¬5000 < 2000 := by
  have hc : ghIsConnectionError "read: connection reset" = true := by decide
  have hnf : ghIsNotFound "" = false := by decide
  have hrl : ghIsRateLimited "" "API rate limit exceeded" = true := by decide
  have hcrl : ghIsConnectionError "" = false := by decide
  have hnf2 : ghIsNotFound "API rate limit exceeded" = false := by decide
  have hnet : jiraIsNetwork "curl: (7) connection refused" = true := by decide
  have hnauth : strIncludes "curl: (7) connection refused" "Authentication failed" = false := by
    decide
  have hne : attempt ≠ retries := by omega
  refine ⟨ghApiGo_waits_spec oracle retries retries 1 [] (by simp),
    jiraApiGo_waits_spec joracle retries retries 1 [] (by simp),
    le_trans (ghApiGo_attempts_le oracle retries retries 1 []) (by omega),
    le_trans (jiraApiGo_attempts_le joracle retries retries 1 []) (by omega),
    ?_, ?_, ?_, ?_, by omega, by omega⟩
  · simp [ghWaitBase, hc, hnf, h]
  · simp [ghWaitBase, hrl, hnf2, hcrl, h]
  · simp [jiraWaitBase]
  · simp [jiraWaitBase, hnet, hnauth, hne]

/-! ## C5: cross-scope namespacing -/

/-- C5: when more than one owner or more than one repo contributes
(`multiOwner || multiRepo`), every pull request's and issue's `externalId`,
every review's `prExternalId` and every non-null (non-empty) commit
`prExternalId` is rewritten with the same qualifier prefix -- `owner/repo`
under multiple owners, the repo name under a single owner; with scope
[ownerA, ownerB] both containing a repo `svc` with PR externalId "7", the
snapshot contains `ownerA/svc/7` and `ownerB/svc/7` as distinct identifiers,
applied consistently to the PR ids, the reviews and the commits pointing at
them. -/
theorem claim_C5_namespacing (mo mr : Bool) (o rep : String) (u : UnitRecords)
    (h : (mo || mr) = true) :
    (qualifyRecords mo mr o rep u).prs.map (·.externalId) =
      u.prs.map (fun pr =>
        (if mo then o ++ "/" ++ rep else rep) ++ "/" ++ pr.externalId) ∧
    (qualifyRecords mo mr o rep u).issues.map (·.externalId) =
      u.issues.map (fun i =>
        (if mo then o ++ "/" ++ rep else rep) ++ "/" ++ i.externalId) ∧
    (qualifyRecords mo mr o rep u).reviews.map (·.prExternalId) =
      u.reviews.map (fun r =>
        (if mo then o ++ "/" ++ rep else rep) ++ "/" ++ r.prExternalId) ∧
    (∀ c ∈ u.commits, ∀ pid, c.prExternalId = some pid → pid ≠ "" →
      { c with prExternalId := some ((if mo then o ++ "/" ++ rep else rep) ++ "/" ++ pid) } ∈
        (qualifyRecords mo mr o rep u).commits) ∧
    (runExport cxEnv c5Inputs).pullRequests.map (·.externalId) =
      ["ownerA/svc/7", "ownerB/svc/7"] ∧
    (runExport cxEnv c5Inputs).reviews.map (·.prExternalId) =
      ["ownerA/svc/7", "ownerB/svc/7"] ∧
    (runExport cxEnv c5Inputs).commits.map (·.prExternalId) =
      [some "ownerA/svc/7", some "ownerB/svc/7"] ∧
    ("ownerA/svc/7" : String) ≠ "ownerB/svc/7" := by
  refine ⟨?_, ?_, ?_, ?_, by decide, by decide, by decide, by decide⟩
  · rw [qualifyRecords, if_pos h, qualifyWith_prs, List.map_map]
    rfl
  · rw [qualifyRecords, if_pos h, qualifyWith_issues, List.map_map]
    rfl
  · rw [qualifyRecords, if_pos h, qualifyWith_reviews, List.map_map]
    rfl
  · intro c hc pid hpid hne
    rw [qualifyRecords, if_pos h, qualifyWith_commits]
    refine List.mem_map.mpr ⟨c, hc, ?_⟩
    rw [hpid]
    dsimp only
    rw [if_neg hne]

theorem claim_C5_namespacing_witness :
    ((true || false) = true) ∧
    (qualifyRecords true false "ownerA" "svc"
        (repoUnit cxEnv "ownerA" c5RepoInput)).prs.map (·.externalId) =
      (repoUnit cxEnv "ownerA" c5RepoInput).prs.map (fun pr =>
        (if true then "ownerA" ++ "/" ++ "svc" else "svc") ++ "/" ++ pr.externalId) :=
  ⟨rfl,
   (claim_C5_namespacing true false "ownerA" "svc"
      (repoUnit cxEnv "ownerA" c5RepoInput) rfl).1⟩

/-! ## C8: pagination stop conditions -/

theorem ghPaginatedGo_full (pages : Nat → List α) :
    ∀ n start, (∀ j, start ≤ j → j < start + n → (pages j).length = 100) →
      ghPaginatedGo pages start n = (List.range' start n).flatMap pages
  | 0, start, _ => by simp [ghPaginatedGo]
  | n + 1, start, h => by
    have h100 : (pages start).length = 100 := h start le_rfl (by omega)
    rw [ghPaginatedGo]
    show (if (pages start).length = 0 then []
      else if (pages start).length < 100 then pages start
      else pages start ++ ghPaginatedGo pages (start + 1) n) = _
    rw [if_neg (by omega), if_neg (by omega),
      ghPaginatedGo_full pages n (start + 1) (fun j hj1 hj2 => h j (by omega) (by omega)),
      List.range'_succ, List.flatMap_cons]

theorem ghPaginatedGo_short (pages : Nat → List α) :
    ∀ m start n, (∀ j, start ≤ j → j < start + m → (pages j).length = 100) →
      (pages (start + m)).length < 100 → start + m < start + n →
      ghPaginatedGo pages start n = (List.range' start (m + 1)).flatMap pages
  | 0, start, n, _, hshort, hn => by
    obtain ⟨n', rfl⟩ : ∃ n', n = n' + 1 := ⟨n - 1, by omega⟩
    rw [ghPaginatedGo]
    show (if (pages start).length = 0 then []
      else if (pages start).length < 100 then pages start
      else pages start ++ ghPaginatedGo pages (start + 1) n') = _
    simp only [List.range'_succ, List.flatMap_cons, List.range'_zero, List.flatMap_nil,
      List.append_nil]
    by_cases h0 : (pages start).length = 0
    · rw [if_pos h0, List.eq_nil_of_length_eq_zero h0]
    · rw [if_neg h0, if_pos (by simpa using hshort)]
  | m + 1, start, n, h, hshort, hn => by
    obtain ⟨n', rfl⟩ : ∃ n', n = n' + 1 := ⟨n - 1, by omega⟩
    have h100 : (pages start).length = 100 := h start le_rfl (by omega)
    rw [ghPaginatedGo]
    show (if (pages start).length = 0 then []
      else if (pages start).length < 100 then pages start
      else pages start ++ ghPaginatedGo pages (start + 1) n') = _
    rw [if_neg (by omega), if_neg (by omega),
      ghPaginatedGo_short pages m (start + 1) n'
        (fun j hj1 hj2 => h j (by omega) (by omega))
        (by rw [show start + 1 + m = start + (m + 1) by omega]; exact hshort)
        (by omega)]
    conv_rhs => rw [List.range'_succ, List.flatMap_cons]

theorem ghPaginatedGo_length_le (pages : Nat → List α) :
    ∀ n start, (∀ p, (pages p).length ≤ 100) →
      (ghPaginatedGo pages start n).length ≤ n * 100
  | 0, start, _ => by simp [ghPaginatedGo]
  | n + 1, start, h => by
    rw [ghPaginatedGo]
    show (if (pages start).length = 0 then []
      else if (pages start).length < 100 then pages start
      else pages start ++ ghPaginatedGo pages (start + 1) n).length ≤ _
    split_ifs
    · simp
    · calc (pages start).length ≤ 100 := h start
        _ ≤ (n + 1) * 100 := by omega
    · rw [List.length_append]
      have h1 := h start
      have h2 := ghPaginatedGo_length_le pages n (start + 1) h
      omega

theorem jiraFetchPages_stop (responses : Nat → List α × Option String)
    (maxResults fuel i : Nat) (acc : List α)
    (h : maxResults ≤ (acc ++ (responses i).1).length ∨ (responses i).2 = none) :
    jiraFetchPages responses maxResults (fuel + 1) i acc =
      some (acc ++ (responses i).1) := by
  rw [jiraFetchPages]
  by_cases hcap : maxResults ≤ (acc ++ (responses i).1).length
  · show (if maxResults ≤ (acc ++ (responses i).1).length then _ else _) = _
    rw [if_pos hcap]
  · have htok : (responses i).2 = none := h.resolve_left hcap
    show (if maxResults ≤ (acc ++ (responses i).1).length then _ else _) = _
    rw [if_neg hcap, htok]

/-! ## C3: bot exclusion -/

/-- C3: bot-authored records of every kind are excluded from the snapshot:
no exported pull request, commit, review or issue carries a bot actor
username, and (when the profile endpoint returns the queried login, as
GitHub's `users/{username}` does) no bot username appears among the
contributors. -/
theorem claim_C3_bot_exclusion (env : RunEnv) (inputs : List OwnerInput)
    (H : ∀ u ∈ runUsernames env inputs,
      ((env.profileOf u).all fun p => p.login == u) = true) :
    (∀ pr ∈ (runExport env inputs).pullRequests,
      ∀ s, pr.authorUsername = some s → isBot s = false) ∧
    (∀ c ∈ (runExport env inputs).commits,
      ∀ s, c.authorUsername = some s → isBot s = false) ∧
    (∀ r ∈ (runExport env inputs).reviews,
      ∀ s, r.reviewerUsername = some s → isBot s = false) ∧
    (∀ i ∈ (runExport env inputs).issues,
      ∀ s, i.authorUsername = some s ∨ i.assigneeUsername = some s →
        isBot s = false) ∧
    (∀ ct ∈ (runExport env inputs).contributors,
      isBot ct.externalUsername = false) := by
  refine ⟨runExport_prs_nonbot env inputs, runExport_commits_nonbot env inputs,
    runExport_reviews_nonbot env inputs, runExport_issues_nonbot env inputs, ?_⟩
  intro ct hct
  rw [runExport_contributors] at hct
  rcases List.mem_filterMap.mp hct with ⟨u, hu, hmk⟩
  rcases Option.map_eq_some'.mp hmk with ⟨p, hp, rfl⟩
  have hH := H u hu
  rw [hp] at hH
  have hlogin : p.login = u := by simpa [Option.all] using hH
  show isBot p.login = false
  rw [hlogin]
  exact (runUsernames_nonbot env inputs u hu).2

theorem claim_C3_bot_exclusion_witness :
    (∀ u ∈ runUsernames c3Env c3Inputs,
      ((c3Env.profileOf u).all fun p => p.login == u) = true) ∧
    (∀ ct ∈ (runExport c3Env c3Inputs).contributors,
      isBot ct.externalUsername = false) :=
  ⟨by decide, (claim_C3_bot_exclusion c3Env c3Inputs (by decide)).2.2.2.2⟩

/-! ## C1: reference integrity of the snapshot -/

theorem runExport_reviews_resolve (env : RunEnv) (inputs : List OwnerInput) :
    ∀ r ∈ (runExport env inputs).reviews,
      ∃ pr ∈ (runExport env inputs).pullRequests,
        pr.externalId = r.prExternalId := by
  intro r hr
  rw [runExport_reviews] at hr
  rcases List.mem_flatMap.mp hr with ⟨un, hun, hru⟩
  rcases mem_allUnits.mp hun with ⟨oi, hoi, ri, hri, rfl⟩
  rcases qualify_reviews_resolve (fun r0 hr0 => unit_reviews_resolve hr0) r hru with
    ⟨pr, hpr, heq⟩
  refine ⟨pr, ?_, heq⟩
  rw [runExport_pullRequests]
  exact List.mem_flatMap.mpr ⟨_, mem_allUnits.mpr ⟨oi, hoi, ri, hri, rfl⟩, hpr⟩

theorem runExport_commits_resolve (env : RunEnv) (inputs : List OwnerInput) :
    ∀ c ∈ (runExport env inputs).commits, ∀ pid, c.prExternalId = some pid →
      ∃ pr ∈ (runExport env inputs).pullRequests, pr.externalId = pid := by
  intro c hc pid hpid
  rw [runExport_commits] at hc
  rcases List.mem_flatMap.mp hc with ⟨un, hun, hcu⟩
  rcases mem_allUnits.mp hun with ⟨oi, hoi, ri, hri, rfl⟩
  rcases qualify_commits_resolve (fun c0 hc0 => unit_commits_resolve hc0) c hcu pid hpid
    with ⟨pr, hpr, heq⟩
  refine ⟨pr, ?_, heq⟩
  rw [runExport_pullRequests]
  exact List.mem_flatMap.mpr ⟨_, mem_allUnits.mpr ⟨oi, hoi, ri, hri, rfl⟩, hpr⟩

theorem runExport_prs_author_ne (env : RunEnv) (inputs : List OwnerInput) :
    ∀ pr ∈ (runExport env inputs).pullRequests,
      ∀ s, pr.authorUsername = some s → s ≠ "" := by
  intro pr hpr s hs
  rw [runExport_pullRequests] at hpr
  rcases List.mem_flatMap.mp hpr with ⟨un, hun, hpru⟩
  rcases mem_allUnits.mp hun with ⟨oi, _, ri, _, rfl⟩
  rcases qualify_prs_author hpru with ⟨y, hy, heq⟩
  exact unit_prs_author_ne hy s (heq ▸ hs)

theorem runExport_issues_users_ne (env : RunEnv) (inputs : List OwnerInput) :
    ∀ i ∈ (runExport env inputs).issues,
      ∀ s, i.authorUsername = some s ∨ i.assigneeUsername = some s → s ≠ "" := by
  intro i hi s hs
  rw [runExport_issues] at hi
  rcases List.mem_flatMap.mp hi with ⟨un, hun, hiu⟩
  rcases mem_allUnits.mp hun with ⟨oi, _, ri, _, rfl⟩
  rcases qualify_issues_users hiu with ⟨y, hy, heq1, heq2⟩
  rcases hs with hs | hs
  · exact unit_issues_users_ne hy s (Or.inl (heq1 ▸ hs))
  · exact unit_issues_users_ne hy s (Or.inr (heq2 ▸ hs))

/-- C1 counterexample: a run with one PR by alice and one review by bob (who
authors nothing else, and whose profile fetch succeeds) produces a snapshot
whose reviews carry `reviewerUsername = "bob"` while the contributors
collection holds only alice -- a dangling non-null reference, because
`exportContributors` never collects reviewer usernames. -/
theorem claim_C1_counterexample :
    (runExport c1Env c1Inputs).reviews.map (·.reviewerUsername) = [some "bob"] ∧
    (runExport c1Env c1Inputs).contributors.map (·.externalUsername) = ["alice"] ∧
    (c1Env.profileOf "bob").isSome ∧
    snapshotRefsResolve (runExport c1Env c1Inputs) = false := by
  refine ⟨by decide, by decide, by decide, by decide⟩

/-- C1 (amended): in the snapshot, every `prExternalId` reference (of a
review, or of a commit when non-null) resolves to an exported pull request;
and whenever the profile fetch succeeds for every collected username (with
the login round-tripping), every pull request's or issue's username field
and every non-empty commit author field resolves to a contributor.  A
review's `reviewerUsername` is not collected by `exportContributors` and may
dangle, as may any username whose profile fetch fails. -/
theorem claim_C1_reference_integrity (env : RunEnv) (inputs : List OwnerInput)
    (H1 : ∀ u ∈ runUsernames env inputs, (env.profileOf u).isSome)
    (H2 : ∀ u ∈ runUsernames env inputs,
      ((env.profileOf u).all fun p => p.login == u) = true) :
    (∀ r ∈ (runExport env inputs).reviews,
      ∃ pr ∈ (runExport env inputs).pullRequests,
        pr.externalId = r.prExternalId) ∧
    (∀ c ∈ (runExport env inputs).commits, ∀ pid, c.prExternalId = some pid →
      ∃ pr ∈ (runExport env inputs).pullRequests, pr.externalId = pid) ∧
    (∀ pr ∈ (runExport env inputs).pullRequests,
      ∀ s, pr.authorUsername = some s →
        ∃ ct ∈ (runExport env inputs).contributors, ct.externalUsername = s) ∧
    (∀ c ∈ (runExport env inputs).commits,
      ∀ s, c.authorUsername = some s → s ≠ "" →
        ∃ ct ∈ (runExport env inputs).contributors, ct.externalUsername = s) ∧
    (∀ i ∈ (runExport env inputs).issues,
      ∀ s, i.authorUsername = some s ∨ i.assigneeUsername = some s →
        ∃ ct ∈ (runExport env inputs).contributors, ct.externalUsername = s) := by
  refine ⟨runExport_reviews_resolve env inputs, runExport_commits_resolve env inputs,
    ?_, ?_, ?_⟩
  · intro pr hpr s hs
    have hne := runExport_prs_author_ne env inputs pr hpr s hs
    refine contributor_for_username env inputs H1 H2 s ?_
    rw [runUsernames, mem_collectUsernames, rawUsernames_sources]
    exact ⟨hne, Or.inl ⟨pr, hpr, hs⟩⟩
  · intro c hc s hs hne
    refine contributor_for_username env inputs H1 H2 s ?_
    rw [runUsernames, mem_collectUsernames, rawUsernames_sources]
    exact ⟨hne, Or.inr (Or.inl ⟨c, hc, hs⟩)⟩
  · intro i hi s hs
    have hne := runExport_issues_users_ne env inputs i hi s hs
    refine contributor_for_username env inputs H1 H2 s ?_
    rw [runUsernames, mem_collectUsernames, rawUsernames_sources]
    exact ⟨hne, Or.inr (Or.inr ⟨i, hi, hs⟩)⟩

theorem claim_C1_reference_integrity_witness :
    (∀ u ∈ runUsernames c1Env c1Inputs, (c1Env.profileOf u).isSome) ∧
    (∀ r ∈ (runExport c1Env c1Inputs).reviews,
      ∃ pr ∈ (runExport c1Env c1Inputs).pullRequests,
        pr.externalId = r.prExternalId) :=
  ⟨by decide,
   (claim_C1_reference_integrity c1Env c1Inputs (by decide) (by decide)).1⟩

/-! ## C2: cross-stream commit reconciliation -/

theorem filter_sha_count_one {l : List CommitRec} {s : String}
    (h : (l.map (·.sha)).Nodup) (hs : s ∈ l.map (·.sha)) :
    (l.filter (fun c => c.sha == s)).length = 1 := by
  rw [← List.countP_eq_length_filter]
  have hm : l.countP (fun c => c.sha == s) = (l.map (·.sha)).countP (fun x => x == s) := by
    rw [List.countP_map]
    rfl
  rw [hm]
  exact List.count_eq_one_of_mem h hs

/-- C2 counterexample: with two pull requests sharing the commit `deadbeef`
(also present in the repo-wide history), the snapshot's commits collection
contains `deadbeef` twice -- once per PR -- not exactly once. -/
theorem claim_C2_counterexample :
    "deadbeef" ∈ (prCommitsOf cxEnv "o" cxRepoInput).map (·.sha) ∧
    "deadbeef" ∈ cxRepoInput.repoCommits.map (·.sha) ∧
    ((runExport cxEnv cxInputs).commits.filter (fun c => c.sha == "deadbeef")).length = 2 ∧
    ¬((runExport cxEnv cxInputs).commits.filter
        (fun c => c.sha == "deadbeef")).length = 1 := by
  refine ⟨by decide, by decide, by decide, by decide⟩

/-- C2 (amended): within one repository unit the repo-wide commit stream is
filtered against the set of shas already captured via the pull-request path,
so no sha appears both as a PR-attributed commit and as a direct-push
(`prExternalId = null`) commit; and provided each sha occurs at most once
among the exported PR-path commits, a sha present in both streams appears
exactly once, attributed via `prExternalId` to its originating (exported)
pull request. -/
theorem claim_C2_commit_dedup (env : RunEnv) (owner : String) (ri : RepoInput)
    (s : String) :
    (∀ c ∈ (repoUnit env owner ri).commits, c.prExternalId = none →
      ∀ c' ∈ (repoUnit env owner ri).commits, c'.prExternalId ≠ none →
        c.sha ≠ c'.sha) ∧
    (((prCommitsOf env owner ri).map (·.sha)).Nodup →
      s ∈ (prCommitsOf env owner ri).map (·.sha) →
      s ∈ ri.repoCommits.map (·.sha) →
      ((repoUnit env owner ri).commits.filter (fun c => c.sha == s)).length = 1 ∧
      ∀ c ∈ (repoUnit env owner ri).commits.filter (fun c => c.sha == s),
        ∃ pr ∈ (repoUnit env owner ri).prs, c.prExternalId = some pr.externalId) := by
  constructor
  · intro c hc hnone c' hc' hsome
    rw [repoUnit_commits] at hc hc'
    rcases List.mem_append.mp hc with h | h
    · have := prCommits_isSome h
      rw [hnone] at this
      exact absurd this (by simp)
    · rcases List.mem_append.mp hc' with h' | h'
      · intro heq
        exact (exportCommits_shape h).2 (heq ▸ List.mem_map_of_mem (·.sha) h')
      · exact absurd (exportCommits_shape h').1 hsome
  · intro hnd hsPR hsRepo
    have hdirect :
        (exportCommits env.nowIso ri.repoCommits
            ((prCommitsOf env owner ri).map (·.sha))).filter
          (fun c => c.sha == s) = [] := by
      rw [List.filter_eq_nil_iff]
      intro c hc
      simp only [beq_iff_eq]
      intro hcs
      exact (exportCommits_shape hc).2 (hcs ▸ hsPR)
    constructor
    · rw [repoUnit_commits, List.filter_append, hdirect, List.append_nil]
      exact filter_sha_count_one hnd hsPR
    · intro c hcf
      rcases List.mem_filter.mp hcf with ⟨hc, hsha⟩
      have hcs : c.sha = s := by simpa using hsha
      rw [repoUnit_commits] at hc
      rcases List.mem_append.mp hc with h | h
      · rcases prCommits_attributed h with ⟨pr, hpr, heq, _⟩
        exact ⟨pr, hpr, heq⟩
      · exact absurd (hcs ▸ hsPR) ((exportCommits_shape h).2)

theorem claim_C2_commit_dedup_witness :
    ((prCommitsOf cxEnv "o" c2wRepoInput).map (·.sha)).Nodup ∧
    ((repoUnit cxEnv "o" c2wRepoInput).commits.filter
        (fun c => c.sha == "deadbeef")).length = 1 :=
  ⟨by decide,
   ((claim_C2_commit_dedup cxEnv "o" c2wRepoInput "deadbeef").2 (by decide) (by decide)
      (by decide)).1⟩

/-- C8: the page-number fetcher `ghApiPaginated` stops exactly when a page
comes back with fewer than 100 items (an empty page included), or when
`maxPages` pages have been fetched: with all pages full it returns the
concatenation of pages 1..maxPages, and with a first short page `k ≤
maxPages` it returns the concatenation of pages 1..k; when the server honours
the page size the result holds at most `maxPages * 100` items.  The cursor
loop of the revised Jira exporter stops at the step whose response carries no
next-page token (or reaches the item cap), returning everything accumulated
through that page. -/
theorem claim_C8_pagination (pages : Nat → List α) (maxPages : Nat)
    (responses : Nat → List β × Option String) (maxResults fuel i : Nat)
    (acc : List β) :
    ((∀ j, 1 ≤ j → j ≤ maxPages → (pages j).length = 100) →
      ghApiPaginated pages maxPages = (List.range' 1 maxPages).flatMap pages) ∧
    (∀ k, 1 ≤ k → k ≤ maxPages →
      (∀ j, 1 ≤ j → j < k → (pages j).length = 100) → (pages k).length < 100 →
      ghApiPaginated pages maxPages = (List.range' 1 k).flatMap pages) ∧
    ((∀ p, (pages p).length ≤ 100) →
      (ghApiPaginated pages maxPages).length ≤ maxPages * 100) ∧
    (maxResults ≤ (acc ++ (responses i).1).length ∨ (responses i).2 = none →
      jiraFetchPages responses maxResults (fuel + 1) i acc =
        some (acc ++ (responses i).1)) := by
  refine ⟨?_, ?_, ?_, jiraFetchPages_stop responses maxResults fuel i acc⟩
  · intro h
    exact ghPaginatedGo_full pages maxPages 1 (fun j hj1 hj2 => h j hj1 (by omega))
  · intro k hk1 hk2 h hshort
    have := ghPaginatedGo_short pages (k - 1) 1 maxPages
      (fun j hj1 hj2 => h j hj1 (by omega))
      (by rw [show 1 + (k - 1) = k by omega]; exact hshort)
      (by omega)
    rw [show k - 1 + 1 = k by omega] at this
    exact this
  · intro h
    exact ghPaginatedGo_length_le pages maxPages 1 h

theorem claim_C8_pagination_witness :
    ghApiPaginated pagesW 5 = (List.range' 1 2).flatMap pagesW ∧
    jiraFetchPages responsesW 1000 4 0 [] = some ([] ++ (responsesW 0).1) :=
  ⟨(claim_C8_pagination pagesW 5 responsesW 1000 3 0 []).2.1 2 (by omega) (by omega)
      (fun j hj1 hj2 => by
        have : j = 1 := by omega
        subst this
        simp [pagesW])
      (by simp [pagesW]),
   (claim_C8_pagination pagesW 5 responsesW 1000 3 0 []).2.2.2 (Or.inr rfl)⟩

theorem claim_C7_backoff_witness :
    (∀ e ∈ (ghApiRun ghAuthFailure 3).2.2,
      e.2 = 2 ^ e.1 * ghWaitBase 3 e.1 (ghAuthFailure e.1)) ∧
    ghWaitBase 3 1 (.fail "read: connection reset" "") = 2000 ∧
    jiraWaitBase 3 1 (.http 429 .ok) = 5000 :=
  ⟨(claim_C7_backoff ghAuthFailure jira429Failure 3 1 (by decide)).1,
   (claim_C7_backoff ghAuthFailure jira429Failure 3 1 (by decide)).2.2.2.2.1,
   (claim_C7_backoff ghAuthFailure jira429Failure 3 1 (by decide)).2.2.2.2.2.2.1⟩

end Arka
